import Mathlib

/-!
Verification development for the NYC taxi-trip data pipeline.

The pipeline (src/data_pipeline) is embedded shallowly: pandas DataFrames
become Lean lists of records, column-wise boolean masks become `List.filter`
with boolean predicates, `pd.merge(..., how="left")` on a unique key becomes
an association lookup, and the per-record streaming cleaner
(src/backend/clean_data.py) becomes a function from a row to an optional
output row.  Machine floats are modelled by rationals; pandas `NaN` / `NaT`
cells are modelled by `Option`, with the pandas convention that any ordering
comparison against a missing value is `false`.
-/

namespace NycTaxi

/-- Pandas-style comparison `a ≤ b` where `a` may be missing (NaN):
a missing value compares `false`. -/
def optLe (a : Option ℚ) (b : ℚ) : Bool :=
  match a with
  | some x => decide (x ≤ b)
  | none => false

/-- Pandas-style comparison `a < b` where `a` may be missing (NaN):
a missing value compares `false`. -/
def optLt (a : Option ℚ) (b : ℚ) : Bool :=
  match a with
  | some x => decide (x < b)
  | none => false

/-- Pandas-style comparison `a ≤ b` on optional timestamps (NaT compares
`false`). -/
def optLeT (a b : Option ℤ) : Bool :=
  match a, b with
  | some x, some y => decide (x ≤ y)
  | _, _ => false

/-- Hour of day (0–23) of an epoch-second timestamp, as computed by
`Series.dt.hour` / `datetime.hour`. -/
def hourOf (t : ℤ) : ℤ :=
  (t / 3600).emod 24

/-- Weekday (Monday = 0 … Sunday = 6) of an epoch-second timestamp, as
computed by `datetime.weekday()`; 1970-01-01 was a Thursday (= 3). -/
def weekdayOf (t : ℤ) : ℤ :=
  (t / 86400 + 3).emod 7

/-- Day name used by `Series.dt.day_name()`. -/
def dayName (t : ℤ) : String :=
  match (weekdayOf t).toNat with
  | 0 => "Monday"
  | 1 => "Tuesday"
  | 2 => "Wednesday"
  | 3 => "Thursday"
  | 4 => "Friday"
  | 5 => "Saturday"
  | _ => "Sunday"

/-- Python `str.title()`: a letter is upper-cased when the preceding
character is not alphabetic, lower-cased otherwise. -/
def titleCase (s : String) : String :=
  String.mk ((s.data.foldl
    (fun (acc : List Char × Bool) c =>
      ((if acc.2 then c.toLower else c.toUpper) :: acc.1, c.isAlpha))
    ([], false)).1.reverse)

/-- One raw trip record, with the columns `clean_trip_data` and
`engineer_features` actually read.  Timestamps are epoch seconds; monetary
and distance columns are rationals; `none` models a NaN/NaT cell. -/
structure Trip where
  tpep_pickup_datetime : Option ℤ
  tpep_dropoff_datetime : Option ℤ
  trip_distance : Option ℚ
  total_amount : Option ℚ
  fare_amount : Option ℚ
  passenger_count : Option ℚ
  pulocationid : Option ℕ
  dolocationid : Option ℕ
  store_and_fwd_flag : Option String
deriving DecidableEq

/-- One row of the taxi-zone lookup table (`taxi_zone_lookup`), after the
loader lower-cases its column names. -/
structure Zone where
  locationid : ℕ
  borough : String
  zone : String
  service_zone : String
deriving DecidableEq

/-- Mask of `clean_trips.py` lines 36: any essential column is null. -/
def missingEssentials (t : Trip) : Bool :=
  t.tpep_pickup_datetime.isNone || t.tpep_dropoff_datetime.isNone ||
  t.trip_distance.isNone || t.total_amount.isNone ||
  t.pulocationid.isNone || t.dolocationid.isNone

/-- Mask of `clean_trips.py` lines 44–50 (invalid logical records); pandas
comparisons against NaN are `false`, so a missing `fare_amount` or
`passenger_count` does not trigger the mask. -/
def invalidLogical (t : Trip) : Bool :=
  optLe t.trip_distance 0 ||
  optLt t.total_amount 0 ||
  optLt t.fare_amount 0 ||
  optLe t.passenger_count 0 ||
  optLeT t.tpep_dropoff_datetime t.tpep_pickup_datetime

/-- The duplicate-detection key of `clean_trips.py` lines 59–64. -/
def dupKey (t : Trip) : Option ℤ × Option ℤ × Option ℕ × Option ℕ :=
  (t.tpep_pickup_datetime, t.tpep_dropoff_datetime, t.pulocationid, t.dolocationid)

/-- `DataFrame.duplicated(subset=key)` with the default `keep="first"`,
split into (retained rows, duplicate rows), both in input order; `seen` is
the set of keys already encountered. -/
def dedup : List Trip → List (Option ℤ × Option ℤ × Option ℕ × Option ℕ) →
    List Trip × List Trip
  | [], _ => ([], [])
  | t :: ts, seen =>
    if dupKey t ∈ seen then
      let r := dedup ts seen
      (r.1, t :: r.2)
    else
      let r := dedup ts (dupKey t :: seen)
      (t :: r.1, r.2)

/-- Left-merge lookup against the zone table on `locationid`.  The pandas
merge is a left outer join; the pipeline's precondition (claimed and
assumed in the theorems below) is that `locationid` is unique in the zone
lookup, under which each trip row matches at most one zone row, embedded
here as `List.find?`.  A null key (NaN) matches nothing. -/
def lookupZone (zones : List Zone) (k : Option ℕ) : Option Zone :=
  match k with
  | some i => zones.find? (fun z => z.locationid == i)
  | none => none

/-- A trip row after the two zone merges of `clean_trips.py` lines 80–101:
the original columns plus resolved pickup/dropoff borough and zone names
(null when the join was unmatched).  `store_and_fwd_flag` is carried as a
column of its own because the final normalization rewrites it. -/
structure Enriched where
  orig : Trip
  pickup_borough : Option String
  pickup_zone : Option String
  dropoff_borough : Option String
  dropoff_zone : Option String
  store_and_fwd_flag : Option String
deriving DecidableEq

/-- The two left merges of `clean_trips.py` applied to one trip row. -/
def enrichTrip (zones : List Zone) (t : Trip) : Enriched :=
  let pz := lookupZone zones t.pulocationid
  let dz := lookupZone zones t.dolocationid
  { orig := t
    pickup_borough := pz.map Zone.borough
    pickup_zone := pz.map Zone.zone
    dropoff_borough := dz.map Zone.borough
    dropoff_zone := dz.map Zone.zone
    store_and_fwd_flag := t.store_and_fwd_flag }

/-- Mask of `clean_trips.py` line 106: either zone name is null. -/
def unmatchedZone (e : Enriched) : Bool :=
  e.pickup_zone.isNone || e.dropoff_zone.isNone

/-- Normalization of `clean_trips.py` lines 114–116 (`str.upper` on the
flag, `str.title` on the boroughs); pandas keeps NaN cells as NaN, hence
`Option.map`. -/
def normalizeEnriched (e : Enriched) : Enriched :=
  { e with
    store_and_fwd_flag := e.store_and_fwd_flag.map String.toUpper
    pickup_borough := e.pickup_borough.map titleCase
    dropoff_borough := e.dropoff_borough.map titleCase }

/-- `clean_trip_data` (src/data_pipeline/clean_trips.py lines 13–124):
four sequential exclusion filters (missing essentials, invalid logical
values, duplicates, unmatched zone joins), each removing its exclusions
from the next filter's input, followed by categorical normalization.
Returns (cleaned rows, excluded rows tagged with `exclusion_reason`), the
excluded batches concatenated in filter order as by `pd.concat`. -/
def clean_trip_data (trips : List Trip) (zones : List Zone) :
    List Enriched × List (Trip × String) :=
  let missing_rows := trips.filter missingEssentials
  let df1 := trips.filter (fun t => !missingEssentials t)
  let invalid_rows := df1.filter invalidLogical
  let df2 := df1.filter (fun t => !invalidLogical t)
  let d := dedup df2 []
  let duplicate_rows := d.2
  let joined := d.1.map (enrichTrip zones)
  let unmatched_rows := joined.filter unmatchedZone
  let df4 := joined.filter (fun e => !unmatchedZone e)
  let cleaned := df4.map normalizeEnriched
  (cleaned,
    missing_rows.map (fun t => (t, "missing_essential_values")) ++
    invalid_rows.map (fun t => (t, "invalid_logical_values")) ++
    duplicate_rows.map (fun t => (t, "duplicate_trip")) ++
    unmatched_rows.map (fun e => (e.orig, "unmatched_zone_lookup")))

/-- Trip duration in minutes (`feature_engineering.py` lines 26–29); null
timestamps (impossible after cleaning, where essentials are present)
propagate as a null duration, like NaT arithmetic in pandas. -/
def durationMinutes (t : Trip) : Option ℚ :=
  match t.tpep_dropoff_datetime, t.tpep_pickup_datetime with
  | some d, some p => some (((d - p : ℤ) : ℚ) / 60)
  | _, _ => none

/-- Average speed in km/h (`feature_engineering.py` line 39):
`trip_distance / (trip_duration_minutes / 60)`.  This stage runs only on
rows whose duration passed the positivity filter, so the duration is
either null (propagating a null speed, as NaN does in pandas) or nonzero;
the unreachable division-by-zero case is mapped to `none`. -/
def averageSpeedKmh (t : Trip) : Option ℚ :=
  match t.trip_distance, durationMinutes t with
  | some dist, some m => if m = 0 then none else some (dist / (m / 60))
  | _, _ => none

/-- Revenue per km (`feature_engineering.py` line 49):
`total_amount / trip_distance`.  This stage runs only on rows that passed
the speed filter; reachable rows from the cleaning stage have
`trip_distance > 0`, so the division-by-zero case (pandas ±inf/NaN) is
unreachable there and mapped to `none`. -/
def revenuePerKm (t : Trip) : Option ℚ :=
  match t.total_amount, t.trip_distance with
  | some a, some dist => if dist = 0 then none else some (a / dist)
  | _, _ => none

/-- Mask of `feature_engineering.py` line 31: `trip_duration_minutes <= 0`
(false on a NaN duration, as in pandas). -/
def invalidDurationMask (t : Trip) : Bool :=
  optLe (durationMinutes t) 0

/-- Mask of `feature_engineering.py` line 41:
`(average_speed_kmh <= 0) | (average_speed_kmh > 150)` (false on NaN). -/
def invalidSpeedMask (t : Trip) : Bool :=
  match averageSpeedKmh t with
  | some s => decide (s ≤ 0 ∨ 150 < s)
  | none => false

/-- Mask of `feature_engineering.py` line 51: `revenue_per_km <= 0`
(false on NaN). -/
def invalidRevenueMask (t : Trip) : Bool :=
  match revenuePerKm t with
  | some r => decide (r ≤ 0)
  | none => false

/-- Peak-hour flag of `feature_engineering.py` lines 63–65: the lambda
`1 if (7 <= x <= 10 or 16 <= x <= 19) else 0`, applied to the (possibly
NaN) pickup hour; both bounds are inclusive and no weekend condition is
applied. -/
def isPeakHourBatch (h : Option ℤ) : ℤ :=
  match h with
  | some x => if (7 ≤ x ∧ x ≤ 10) ∨ (16 ≤ x ∧ x ≤ 19) then 1 else 0
  | none => 0

/-- A fully feature-engineered output row. -/
structure FeatRec where
  base : Enriched
  trip_duration_minutes : Option ℚ
  average_speed_kmh : Option ℚ
  revenue_per_km : Option ℚ
  pickup_hour : Option ℤ
  pickup_day : Option String
  is_peak_hour : ℤ
deriving DecidableEq

/-- The original raw trip underlying a feature-engineered row. -/
def FeatRec.orig (f : FeatRec) : Trip := f.base.orig

/-- `engineer_features` (src/data_pipeline/feature_engineering.py lines
10–73): three sequential exclusion filters (non-positive duration, speed
outside (0, 150], non-positive revenue per km), each removing its
exclusions from the next filter's input, then the time-based feature
columns.  Returns (feature rows, excluded rows tagged with
`exclusion_reason`), the excluded batches concatenated in filter order. -/
def engineer_features (l : List Enriched) : List FeatRec × List (Trip × String) :=
  let bad_duration := l.filter (fun e => invalidDurationMask e.orig)
  let df1 := l.filter (fun e => !invalidDurationMask e.orig)
  let bad_speed := df1.filter (fun e => invalidSpeedMask e.orig)
  let df2 := df1.filter (fun e => !invalidSpeedMask e.orig)
  let bad_revenue := df2.filter (fun e => invalidRevenueMask e.orig)
  let df3 := df2.filter (fun e => !invalidRevenueMask e.orig)
  let out := df3.map (fun e =>
    ({ base := e,
       trip_duration_minutes := durationMinutes e.orig,
       average_speed_kmh := averageSpeedKmh e.orig,
       revenue_per_km := revenuePerKm e.orig,
       pickup_hour := e.orig.tpep_pickup_datetime.map hourOf,
       pickup_day := e.orig.tpep_pickup_datetime.map dayName,
       is_peak_hour := isPeakHourBatch (e.orig.tpep_pickup_datetime.map hourOf) } : FeatRec))
  (out,
    bad_duration.map (fun e => (e.orig, "invalid_trip_duration")) ++
    bad_speed.map (fun e => (e.orig, "invalid_average_speed")) ++
    bad_revenue.map (fun e => (e.orig, "invalid_revenue_per_km")))

/-- A stage-level exclusion DataFrame as passed to
`merge_exclude_records`: its rows, plus the `pipeline_stage` column, which
is absent (`none`) until the merge writes it in place. -/
structure ExFrame (α : Type) where
  rows : List α
  pipeline_stage : Option String
deriving DecidableEq

/-- `merge_exclude_records` (src/data_pipeline/excluded_records.py lines
13–35).  Pandas DataFrames are mutable and passed by reference, so the
in-place column write `frame["pipeline_stage"] = stage` is modelled with
explicit state passing: the result is (merged ledger, post-call state of
the first argument, post-call state of the second argument).  A non-empty
batch is stamped with its stage name (mutating the caller's frame) and
appended; if no batch is non-empty the function returns `none` rather
than an empty ledger. -/
def merge_exclude_records {α : Type} (c e : Option (ExFrame α)) :
    Option (List (α × String)) × Option (ExFrame α) × Option (ExFrame α) :=
  let rc : Option (ExFrame α) × List (List (α × String)) :=
    match c with
    | some fr =>
      if fr.rows.isEmpty then (some fr, [])
      else (some { fr with pipeline_stage := some "cleaning" },
            [fr.rows.map (fun r => (r, "cleaning"))])
    | none => (none, [])
  let re : Option (ExFrame α) × List (List (α × String)) :=
    match e with
    | some fr =>
      if fr.rows.isEmpty then (some fr, [])
      else (some { fr with pipeline_stage := some "feature_engineering" },
            [fr.rows.map (fun r => (r, "feature_engineering"))])
    | none => (none, [])
  let frames := rc.2 ++ re.2
  (if frames.isEmpty then none else some frames.flatten, rc.1, re.1)

/-- The cleaning and feature-engineering stages composed as `run_pipeline`
composes them on a fresh store, together with the merged exclusion ledger
(taken as the empty list when `merge_exclude_records` signals that there
are no exclusions).  Ledger entries are ((original trip, exclusion
reason), pipeline stage). -/
def pipelineOnce (trips : List Trip) (zones : List Zone) :
    List FeatRec × List ((Trip × String) × String) :=
  let c := clean_trip_data trips zones
  let f := engineer_features c.1
  (f.1,
    ((merge_exclude_records (some ⟨c.2, none⟩) (some ⟨f.2, none⟩)).1).getD [])

/-- NYC bounding box, `clean_data.py` lines 25–26. -/
def NYC_MIN_LAT : ℚ := 404774 / 10000
/-- NYC bounding box, `clean_data.py` lines 25–26. -/
def NYC_MAX_LAT : ℚ := 409176 / 10000
/-- NYC bounding box, `clean_data.py` lines 25–26. -/
def NYC_MIN_LON : ℚ := -(742591 / 10000)
/-- NYC bounding box, `clean_data.py` lines 25–26. -/
def NYC_MAX_LON : ℚ := -(737004 / 10000)

/-- Miles-to-kilometres factor of `clean_data.py` line 143. -/
def MILE_TO_KM : ℚ := 160934 / 100000

/-- `is_valid_coordinate` (`clean_data.py` lines 83–88). -/
def is_valid_coordinate (lat lon : ℚ) : Bool :=
  decide (NYC_MIN_LAT ≤ lat ∧ lat ≤ NYC_MAX_LAT ∧
          NYC_MIN_LON ≤ lon ∧ lon ≤ NYC_MAX_LON)

/-- One raw row of the streaming cleaner (`clean_data.py`), with the
fields `calculate_features` reads.  The datetimes are already parsed
(`parse_dt` returns `None` on failure, modelled by `none`); the numeric
fields are the `float(...)` conversions of the CSV cells. -/
structure BRow where
  pickup_datetime : Option ℤ
  dropoff_datetime : Option ℤ
  pickup_latitude : ℚ
  pickup_longitude : ℚ
  dropoff_latitude : ℚ
  dropoff_longitude : ℚ
  trip_distance : ℚ
  fare_amount : ℚ
  tip_amount : ℚ
  passenger_count : ℤ
  payment_type : String
deriving DecidableEq

/-- The cleaned output row built by `calculate_features`
(`clean_data.py` lines 174–196).  The idle-time and trip-efficiency
columns keep the source's field order. -/
structure BOut where
  pickup_lat : ℚ
  pickup_lon : ℚ
  dropoff_lat : ℚ
  dropoff_lon : ℚ
  trip_distance_km : ℚ
  trip_duration_sec : ℚ
  fare_amount : ℚ
  tip_amount : ℚ
  passenger_count : ℤ
  payment_type : String
  avg_speed_kmh : ℚ
  fare_per_km : ℚ
  pickup_hour : ℤ
  weekday : ℤ
  is_weekend : ℤ
  haversine_km : ℚ
  idleTimeR : ℚ
  tripEfficiency : ℚ
  is_peak_hour : ℤ
deriving DecidableEq

/-- `calculate_features` (src/backend/clean_data.py lines 100–202).
The haversine distance (lines 62–81) is a floating-point trigonometric
computation; it is modelled by the parameter `hav`, the value
`haversine_km` returns for the row's coordinates (a nonnegative real in
the source).  Every other step — the positive-duration gate, the NYC
bounding-box gate, the single miles→km conversion, average speed, fare
per km, calendar features, the clamped idle-time ratio, the unclamped
trip-efficiency ratio (whose divisor is Python's `trip_distance_km or 1`,
i.e. the distance when nonzero, else 1), and the weekday-aware half-open
peak-hour flag — is embedded directly.  Returns `none` exactly where the
source returns `None` (record dropped). -/
def calculate_features (row : BRow) (hav : ℚ) : Option BOut :=
  match row.pickup_datetime, row.dropoff_datetime with
  | some p, some d =>
    let duration : ℚ := ((d - p : ℤ) : ℚ)
    if duration ≤ 0 then none
    else if !(is_valid_coordinate row.pickup_latitude row.pickup_longitude &&
              is_valid_coordinate row.dropoff_latitude row.dropoff_longitude) then none
    else
      let trip_distance_km := row.trip_distance * MILE_TO_KM
      let avg_speed_kmh := if 0 < duration then trip_distance_km / duration * 3600 else 0
      let fare_per_km := if 0 < trip_distance_km then row.fare_amount / trip_distance_km else 0
      let pickup_hour := hourOf p
      let wd := weekdayOf p
      let is_weekend : ℤ := if 5 ≤ wd then 1 else 0
      let denom := if trip_distance_km = 0 then 1 else trip_distance_km
      let idle0 := 1 - hav / denom
      let idleClamped := max 0 (min 1 idle0)
      let eff := hav / denom
      let is_peak : ℤ :=
        if is_weekend = 0 ∧ ((7 ≤ pickup_hour ∧ pickup_hour < 10) ∨
                             (16 ≤ pickup_hour ∧ pickup_hour < 19)) then 1 else 0
      some
        { pickup_lat := row.pickup_latitude,
          pickup_lon := row.pickup_longitude,
          dropoff_lat := row.dropoff_latitude,
          dropoff_lon := row.dropoff_longitude,
          trip_distance_km := trip_distance_km,
          trip_duration_sec := duration,
          fare_amount := row.fare_amount,
          tip_amount := row.tip_amount,
          passenger_count := row.passenger_count,
          payment_type := row.payment_type,
          avg_speed_kmh := avg_speed_kmh,
          fare_per_km := fare_per_km,
          pickup_hour := pickup_hour,
          weekday := wd,
          is_weekend := is_weekend,
          haversine_km := hav,
          idleTimeR := idleClamped,
          tripEfficiency := eff,
          is_peak_hour := is_peak }
  | _, _ => none

/-- The cleaned-trips artifact (`cleaned_data/cleaned_trips.csv`): either
the output of `clean_trip_data` alone (no `trip_duration_minutes` column
in its header) or the output of `engineer_features` (which adds it). -/
inductive TripsArtifact
  | cleanedOnly (rows : List Enriched)
  | engineered (rows : List FeatRec)
deriving DecidableEq

/-- Column test of `run_pipeline.py` line 79:
`"trip_duration_minutes" in clean_df.columns`. -/
def hasDurationCol : TripsArtifact → Bool
  | .cleanedOnly _ => false
  | .engineered _ => true

/-- Durable-storage state probed by `run_pipeline`: the four output
artifacts, `none` when the file does not exist.  `γ` is the content type
of the cleaned GeoJSON artifact. -/
structure Store (γ : Type) where
  geo : Option γ
  zonesCsv : Option (List Zone)
  cleanedTrips : Option TripsArtifact
  excluded : Option (List ((Trip × String) × String))
deriving DecidableEq

/-- Whether a stage of `run_pipeline` executed or was skipped with a skip
notice. -/
inductive Act
  | ran
  | skipped
deriving DecidableEq

/-- The per-stage execute/skip trace of one `run_pipeline` invocation:
GeoJSON cleaning, zones CSV save, trip cleaning, feature engineering, and
the excluded-records write. -/
structure RunTrace where
  geoA : Act
  zonesA : Act
  cleanA : Act
  featA : Act
  exclA : Act
deriving DecidableEq

/-- Raw inputs loaded by `load_all_raw_data`: the trip table, the zone
lookup, and the raw GeoJSON frame (content type `δ`). -/
structure RawInputs (δ : Type) where
  trips : List Trip
  zones : List Zone
  geo : δ
deriving DecidableEq

/-- `run_pipeline` (src/data_pipeline/run_pipeline.py lines 29–98) as a
state transformer on the artifact store, also returning the execute/skip
trace.  `cleanGeo` abstracts the GeoJSON cleaning body (column
lower-casing, column selection and the geopandas CRS reprojection to
EPSG:4326, lines 42–51), which is external-library geometry code.  Each
stage runs only when its artifact is absent; feature engineering runs
only when the in-memory cleaned frame lacks the `trip_duration_minutes`
column; the merged exclusion ledger is written only when
`merge_exclude_records` returns a non-`None`, non-empty result. -/
def run_pipeline {γ δ : Type} (cleanGeo : δ → γ) (inp : RawInputs δ)
    (s : Store γ) : Store γ × RunTrace :=
  let geoStep : Option γ × Act :=
    match s.geo with
    | none => (some (cleanGeo inp.geo), .ran)
    | some g => (some g, .skipped)
  let zonesStep : Option (List Zone) × Act :=
    match s.zonesCsv with
    | none => (some inp.zones, .ran)
    | some z => (some z, .skipped)
  let cleanStep : TripsArtifact × List (Trip × String) × Act :=
    match s.cleanedTrips with
    | none =>
      let c := clean_trip_data inp.trips inp.zones
      (.cleanedOnly c.1, c.2, .ran)
    | some art => (art, [], .skipped)
  let featStep : TripsArtifact × List (Trip × String) × Act :=
    match cleanStep.1 with
    | .cleanedOnly rows =>
      let f := engineer_features rows
      (.engineered f.1, f.2, .ran)
    | .engineered f => (.engineered f, [], .skipped)
  let merged :=
    (merge_exclude_records (some ⟨cleanStep.2.1, none⟩) (some ⟨featStep.2.1, none⟩)).1
  let exclStep : Option (List ((Trip × String) × String)) × Act :=
    match merged with
    | some l => if l.isEmpty then (s.excluded, .skipped) else (some l, .ran)
    | none => (s.excluded, .skipped)
  ({ geo := geoStep.1,
     zonesCsv := zonesStep.1,
     cleanedTrips := some featStep.1,
     excluded := exclStep.1 },
   { geoA := geoStep.2,
     zonesA := zonesStep.2,
     cleanA := cleanStep.2.2,
     featA := featStep.2.2,
     exclA := exclStep.2 })

/-- Rows of an optional exclusion frame (`[]` for a `None` argument). -/
def rowsOf {α : Type} : Option (ExFrame α) → List α
  | some fr => fr.rows
  | none => []

theorem normalizeEnriched_orig (e : Enriched) : (normalizeEnriched e).orig = e.orig := rfl

theorem enrichTrip_orig (zones : List Zone) (t : Trip) : (enrichTrip zones t).orig = t := rfl

/-- C8: `merge_exclude_records` stamps each non-empty batch with its stage
name, concatenates cleaning rows before feature-engineering rows
preserving per-stage order, and returns the distinct no-exclusions signal
`none` (not an empty table) exactly when both input batches are null or
empty. -/
theorem merge_ledger_contract {α : Type} (c e : Option (ExFrame α)) :
    ((merge_exclude_records c e).1 =
      if (rowsOf c).isEmpty && (rowsOf e).isEmpty then none
      else some ((rowsOf c).map (fun r => (r, "cleaning")) ++
                 (rowsOf e).map (fun r => (r, "feature_engineering")))) ∧
    ((merge_exclude_records c e).1 = none ↔ rowsOf c = [] ∧ rowsOf e = []) := by
  have hmain : (merge_exclude_records c e).1 =
      if (rowsOf c).isEmpty && (rowsOf e).isEmpty then none
      else some ((rowsOf c).map (fun r => (r, "cleaning")) ++
                 (rowsOf e).map (fun r => (r, "feature_engineering"))) := by
    rcases c with _ | fc <;> rcases e with _ | fe
    · simp [merge_exclude_records, rowsOf]
    · rcases he : fe.rows with _ | ⟨y, ys⟩ <;>
        simp [merge_exclude_records, rowsOf, he]
    · rcases hc : fc.rows with _ | ⟨x, xs⟩ <;>
        simp [merge_exclude_records, rowsOf, hc]
    · rcases hc : fc.rows with _ | ⟨x, xs⟩ <;>
        rcases he : fe.rows with _ | ⟨y, ys⟩ <;>
        simp [merge_exclude_records, rowsOf, hc, he]
  refine ⟨hmain, ?_⟩
  rw [hmain]
  rcases hc : (rowsOf c) with _ | ⟨x, xs⟩ <;>
    rcases he : (rowsOf e) with _ | ⟨y, ys⟩ <;> simp

/-- C10: `merge_exclude_records` mutates its arguments in place: for a
non-empty stage batch, the `pipeline_stage` column is written into the
caller-owned frame itself before concatenation, so after the call the
caller's batch carries the added column with its stage name. -/
theorem merge_mutates_inputs_in_place {α : Type} (frc fre : ExFrame α)
    (hc : frc.rows ≠ []) (he : fre.rows ≠ []) (c e : Option (ExFrame α)) :
    (merge_exclude_records (some frc) e).2.1 =
      some { frc with pipeline_stage := some "cleaning" } ∧
    (merge_exclude_records c (some fre)).2.2 =
      some { fre with pipeline_stage := some "feature_engineering" } := by
  constructor
  · rcases e with _ | fe <;>
      simp [merge_exclude_records, List.isEmpty_iff, hc]
  · rcases c with _ | fc <;>
      simp [merge_exclude_records, List.isEmpty_iff, he]

/-- Witness for C10 at a concrete input. -/
theorem merge_mutates_inputs_in_place_witness :
    ((⟨[(7 : ℕ)], none⟩ : ExFrame ℕ).rows ≠ [] ∧
     (⟨[(9 : ℕ)], none⟩ : ExFrame ℕ).rows ≠ []) ∧
    ((merge_exclude_records (some (⟨[7], none⟩ : ExFrame ℕ)) none).2.1 =
      some ⟨[7], some "cleaning"⟩ ∧
     (merge_exclude_records (none : Option (ExFrame ℕ)) (some ⟨[9], none⟩)).2.2 =
      some ⟨[9], some "feature_engineering"⟩) :=
  ⟨⟨by simp, by simp⟩,
   merge_mutates_inputs_in_place ⟨[7], none⟩ ⟨[9], none⟩ (by simp) (by simp) none none⟩

theorem calculate_features_fields {row : BRow} {hav : ℚ} {out : BOut}
    (h : calculate_features row hav = some out) :
    ∃ p, row.pickup_datetime = some p ∧
      0 < out.trip_duration_sec ∧
      out.trip_distance_km = row.trip_distance * MILE_TO_KM ∧
      out.haversine_km = hav ∧
      out.avg_speed_kmh = out.trip_distance_km / out.trip_duration_sec * 3600 ∧
      (0 < out.trip_distance_km → out.fare_per_km = row.fare_amount / out.trip_distance_km) ∧
      out.pickup_hour = hourOf p ∧
      out.weekday = weekdayOf p ∧
      (out.is_weekend = if 5 ≤ out.weekday then 1 else 0) ∧
      out.idleTimeR = max 0 (min 1 (1 - out.haversine_km /
        (if out.trip_distance_km = 0 then 1 else out.trip_distance_km))) ∧
      out.tripEfficiency = out.haversine_km /
        (if out.trip_distance_km = 0 then 1 else out.trip_distance_km) ∧
      (out.is_peak_hour = if out.is_weekend = 0 ∧
          ((7 ≤ out.pickup_hour ∧ out.pickup_hour < 10) ∨
           (16 ≤ out.pickup_hour ∧ out.pickup_hour < 19)) then 1 else 0) := by
  rcases hp : row.pickup_datetime with _ | p
  · simp only [calculate_features, hp] at h
    exact Option.noConfusion h
  · rcases hd : row.dropoff_datetime with _ | d
    · simp only [calculate_features, hp, hd] at h
      exact Option.noConfusion h
    · simp only [calculate_features, hp, hd] at h
      by_cases h1 : ((d - p : ℤ) : ℚ) ≤ 0
      · rw [if_pos h1] at h
        exact Option.noConfusion h
      · by_cases h2 : (is_valid_coordinate row.pickup_latitude row.pickup_longitude &&
            is_valid_coordinate row.dropoff_latitude row.dropoff_longitude) = true
        · rw [if_neg h1, if_neg (by simp [h2])] at h
          have hout := (Option.some.injEq _ _).mp h
          subst hout
          have hlt : (0 : ℚ) < ((d - p : ℤ) : ℚ) := lt_of_not_le h1
          refine ⟨p, rfl, hlt, rfl, rfl, ?_, ?_, rfl, rfl, rfl, rfl, rfl, rfl⟩
          · show (if (0 : ℚ) < ((d - p : ℤ) : ℚ) then
                row.trip_distance * MILE_TO_KM / ((d - p : ℤ) : ℚ) * 3600 else 0) =
              row.trip_distance * MILE_TO_KM / ((d - p : ℤ) : ℚ) * 3600
            rw [if_pos hlt]
          · intro hpos
            show (if (0 : ℚ) < row.trip_distance * MILE_TO_KM then
                row.fare_amount / (row.trip_distance * MILE_TO_KM) else 0) =
              row.fare_amount / (row.trip_distance * MILE_TO_KM)
            exact if_pos hpos
        · have h2' : (is_valid_coordinate row.pickup_latitude row.pickup_longitude &&
              is_valid_coordinate row.dropoff_latitude row.dropoff_longitude) = false := by
            revert h2
            cases is_valid_coordinate row.pickup_latitude row.pickup_longitude &&
              is_valid_coordinate row.dropoff_latitude row.dropoff_longitude <;> simp
          rw [if_neg h1, if_pos (by simp [h2'])] at h
          exact Option.noConfusion h

/-- Characterization of the batch peak-hour lambda. -/
theorem isPeakHourBatch_eq_one_iff (h : Option ℤ) :
    isPeakHourBatch h = 1 ↔ ∃ x, h = some x ∧ ((7 ≤ x ∧ x ≤ 10) ∨ (16 ≤ x ∧ x ≤ 19)) := by
  rcases h with _ | x
  · simp [isPeakHourBatch]
  · by_cases hx : (7 ≤ x ∧ x ≤ 10) ∨ (16 ≤ x ∧ x ≤ 19) <;>
      simp [isPeakHourBatch, hx]

theorem engineer_features_out_shape {l : List Enriched} {f : FeatRec}
    (hf : f ∈ (engineer_features l).1) :
    ∃ e : Enriched, e ∈ l ∧ f.base = e ∧
      f.pickup_hour = e.orig.tpep_pickup_datetime.map hourOf ∧
      f.is_peak_hour = isPeakHourBatch (e.orig.tpep_pickup_datetime.map hourOf) ∧
      f.trip_duration_minutes = durationMinutes e.orig ∧
      f.average_speed_kmh = averageSpeedKmh e.orig ∧
      f.revenue_per_km = revenuePerKm e.orig ∧
      invalidDurationMask e.orig = false ∧
      invalidSpeedMask e.orig = false ∧
      invalidRevenueMask e.orig = false := by
  simp only [engineer_features, List.mem_map] at hf
  obtain ⟨e, he, rfl⟩ := hf
  simp only [List.mem_filter] at he
  obtain ⟨⟨⟨hel, h1⟩, h2⟩, h3⟩ := he
  exact ⟨e, hel, rfl, rfl, rfl, rfl, rfl, rfl, by simpa using h1,
    by simpa using h2, by simpa using h3⟩

/-- Peak-hour flag as the claim states it, used to compare the code's
behaviour with the claimed one: 1 iff not a weekend AND the hour lies in
[7,10) or [16,19). -/
def claimPeakFlag (isWeekend : Bool) (h : ℤ) : ℤ :=
  if isWeekend = false ∧ ((7 ≤ h ∧ h < 10) ∨ (16 ≤ h ∧ h < 19)) then 1 else 0

/-- Peak-hour behaviour of the streaming variant, as the claim states it:
flag 1 exactly on non-weekend pickups in the half-open windows. -/
def backendPeakSpec (out : BOut) : Prop :=
  (out.is_peak_hour = 1 ↔ out.is_weekend = 0 ∧
      ((7 ≤ out.pickup_hour ∧ out.pickup_hour < 10) ∨
       (16 ≤ out.pickup_hour ∧ out.pickup_hour < 19))) ∧
  (out.is_weekend = 0 ↔ out.weekday < 5) ∧
  (out.is_peak_hour = 0 ∨ out.is_peak_hour = 1)

/-- Peak-hour behaviour of the batch variant: inclusive hour windows and
no weekend condition. -/
def batchPeakSpec (f : FeatRec) : Prop :=
  (f.is_peak_hour = 1 ↔ ∃ h, f.pickup_hour = some h ∧
      ((7 ≤ h ∧ h ≤ 10) ∨ (16 ≤ h ∧ h ≤ 19))) ∧
  (f.is_peak_hour = 0 ∨ f.is_peak_hour = 1)

/-- C4 (amended): the streaming variant's peak-hour flag is 1 iff the
pickup is not on a weekend and the pickup hour lies in [7,10) or [16,19),
as the claim states; the batch variant instead uses the inclusive ranges
[7,10] and [16,19] and ignores the weekend entirely.  Both flags only
take values 0 and 1. -/
theorem peak_hour_flag_variants :
    (∀ (row : BRow) (hav : ℚ) (out : BOut), calculate_features row hav = some out →
      backendPeakSpec out) ∧
    (∀ (l : List Enriched) (f : FeatRec), f ∈ (engineer_features l).1 →
      batchPeakSpec f) := by
  constructor
  · intro row hav out h
    unfold backendPeakSpec
    obtain ⟨p, -, -, -, -, -, -, -, -, hwk, -, -, hpk⟩ := calculate_features_fields h
    refine ⟨?_, ?_, ?_⟩
    · rw [hpk]
      by_cases hc : out.is_weekend = 0 ∧
          ((7 ≤ out.pickup_hour ∧ out.pickup_hour < 10) ∨
           (16 ≤ out.pickup_hour ∧ out.pickup_hour < 19)) <;> simp [hc]
    · rw [hwk]
      by_cases hw : 5 ≤ out.weekday
      · simp only [if_pos hw]
        constructor
        · intro h10; exact absurd h10 (by norm_num)
        · intro hlt; omega
      · simp only [if_neg hw]
        constructor
        · intro _; omega
        · intro _; trivial
    · rw [hpk]
      by_cases hc : out.is_weekend = 0 ∧
          ((7 ≤ out.pickup_hour ∧ out.pickup_hour < 10) ∨
           (16 ≤ out.pickup_hour ∧ out.pickup_hour < 19)) <;> simp [hc]
  · intro l f hf
    unfold batchPeakSpec
    obtain ⟨e, -, -, hhour, hpk, -⟩ := engineer_features_out_shape hf
    constructor
    · rw [hpk, hhour, isPeakHourBatch_eq_one_iff]
    · rw [hpk]
      rcases e.orig.tpep_pickup_datetime with _ | p
      · simp [isPeakHourBatch]
      · by_cases hx : (7 ≤ hourOf p ∧ hourOf p ≤ 10) ∨ (16 ≤ hourOf p ∧ hourOf p ≤ 19) <;>
          simp [isPeakHourBatch, hx]

/-- A sample zone-lookup row used in concrete instantiations. -/
def zoneA : Zone := ⟨1, "manhattan", "midtown center", "yellow"⟩

/-- A sample raw trip: pickup 1970-01-05 (a Monday) at 10:00, 60-minute
duration, 50 km reported distance, valid amounts, both location ids 1. -/
def tripMon10 : Trip :=
  ⟨some 381600, some 385200, some 50, some 10, some 5, some 1, some 1, some 1, some "n"⟩

/-- A sample streaming-cleaner row: one-hour trip inside the NYC bounding
box whose reported distance in miles converts to exactly 1 km. -/
def rowB : BRow :=
  ⟨some 0, some 3600, 81/2, -74, 81/2, -74, 100000/160934, 2, 0, 1, "card"⟩

/-- Placeholder output row for `Option.getD` in concrete instantiations. -/
def dummyBOut : BOut := ⟨0, 0, 0, 0, 0, 0, 0, 0, 0, "", 0, 0, 0, 0, 0, 0, 0, 0, 0⟩

/-- Placeholder feature row for `List.getD` in concrete instantiations. -/
def dummyFeat : FeatRec :=
  ⟨⟨⟨none, none, none, none, none, none, none, none, none⟩,
    none, none, none, none, none⟩, none, none, none, none, none, 0⟩

/-- Witness for C4 at concrete inputs of both variants. -/
theorem peak_hour_flag_variants_witness :
    (calculate_features rowB 1 = some ((calculate_features rowB 1).getD dummyBOut) ∧
     ((engineer_features [enrichTrip [zoneA] tripMon10]).1.getD 0 dummyFeat) ∈
       (engineer_features [enrichTrip [zoneA] tripMon10]).1) ∧
    (backendPeakSpec ((calculate_features rowB 1).getD dummyBOut) ∧
     batchPeakSpec ((engineer_features [enrichTrip [zoneA] tripMon10]).1.getD 0 dummyFeat)) := by
  have h1 : calculate_features rowB 1 = some ((calculate_features rowB 1).getD dummyBOut) := by
    norm_num [calculate_features, rowB, is_valid_coordinate, NYC_MIN_LAT, NYC_MAX_LAT,
      NYC_MIN_LON, NYC_MAX_LON, MILE_TO_KM, hourOf, weekdayOf]
  have h2 : ((engineer_features [enrichTrip [zoneA] tripMon10]).1.getD 0 dummyFeat) ∈
      (engineer_features [enrichTrip [zoneA] tripMon10]).1 := by
    norm_num [engineer_features, enrichTrip, tripMon10, zoneA, lookupZone,
      invalidDurationMask, invalidSpeedMask, invalidRevenueMask,
      durationMinutes, averageSpeedKmh, revenuePerKm, optLe]
  exact ⟨⟨h1, h2⟩, peak_hour_flag_variants.1 rowB 1 _ h1,
    peak_hour_flag_variants.2 _ _ h2⟩

/-- Counterexample for C4 as stated: a Monday 10:00 pickup is not in
[7,10) ∪ [16,19), so the claim says its flag is 0, but the batch variant
computes flag 1 for it. -/
theorem peak_hour_flag_counterexample :
    (engineer_features [enrichTrip [zoneA] tripMon10]).1.map FeatRec.is_peak_hour = [1] ∧
    (engineer_features [enrichTrip [zoneA] tripMon10]).1.map FeatRec.pickup_hour = [some 10] ∧
    weekdayOf 381600 = 0 ∧
    claimPeakFlag false 10 = 0 := by
  refine ⟨?_, ?_, by decide, by decide⟩ <;>
    norm_num [engineer_features, enrichTrip, tripMon10, zoneA, lookupZone,
      invalidDurationMask, invalidSpeedMask, invalidRevenueMask, isPeakHourBatch,
      durationMinutes, averageSpeedKmh, revenuePerKm, optLe, hourOf]

theorem optLe_true_iff (a : Option ℚ) (b : ℚ) :
    optLe a b = true ↔ ∃ x, a = some x ∧ x ≤ b := by
  rcases a with _ | x <;> simp [optLe]

theorem optLt_true_iff (a : Option ℚ) (b : ℚ) :
    optLt a b = true ↔ ∃ x, a = some x ∧ x < b := by
  rcases a with _ | x <;> simp [optLt]

theorem invalidSpeedMask_true_iff (t : Trip) :
    invalidSpeedMask t = true ↔
      ∃ s, averageSpeedKmh t = some s ∧ (s ≤ 0 ∨ 150 < s) := by
  unfold invalidSpeedMask
  rcases h : averageSpeedKmh t with _ | s <;> simp [h]

theorem invalidRevenueMask_true_iff (t : Trip) :
    invalidRevenueMask t = true ↔ ∃ v, revenuePerKm t = some v ∧ v ≤ 0 := by
  unfold invalidRevenueMask
  rcases h : revenuePerKm t with _ | v <;> simp [h]

theorem engineer_features_exc_shape {l : List Enriched} {p : Trip × String}
    (hp : p ∈ (engineer_features l).2) :
    (∃ e ∈ l, p = (e.orig, "invalid_trip_duration") ∧
      invalidDurationMask e.orig = true) ∨
    (∃ e ∈ l, p = (e.orig, "invalid_average_speed") ∧
      invalidDurationMask e.orig = false ∧ invalidSpeedMask e.orig = true) ∨
    (∃ e ∈ l, p = (e.orig, "invalid_revenue_per_km") ∧
      invalidDurationMask e.orig = false ∧ invalidSpeedMask e.orig = false ∧
      invalidRevenueMask e.orig = true) := by
  simp only [engineer_features, List.mem_append, List.mem_map, List.mem_filter] at hp
  rcases hp with (⟨e, ⟨hel, hm⟩, rfl⟩ | ⟨e, ⟨⟨hel, h1⟩, hm⟩, rfl⟩) |
    ⟨e, ⟨⟨⟨hel, h1⟩, h2⟩, hm⟩, rfl⟩
  · exact Or.inl ⟨e, hel, rfl, hm⟩
  · exact Or.inr (Or.inl ⟨e, hel, rfl, by simpa using h1, hm⟩)
  · exact Or.inr (Or.inr ⟨e, hel, rfl, by simpa using h1, by simpa using h2, hm⟩)

/-- Property of a batch-variant speed exclusion, as the claim's amended
form states it: the computed average speed exists and lies outside
(0, 150], and the row had already passed the duration filter. -/
def speedBatchExcSpec (p : Trip × String) : Prop :=
  (∃ s, averageSpeedKmh p.1 = some s ∧ ¬(0 < s ∧ s ≤ 150)) ∧
  invalidDurationMask p.1 = false

/-- Property of a batch-variant accepted row: any computed average speed
lies in (0, 150]. -/
def speedBatchAccSpec (f : FeatRec) : Prop :=
  ∀ s, f.average_speed_kmh = some s → 0 < s ∧ s ≤ 150

/-- A sample trip with average speed exactly 150 km/h (150 km reported in
60 minutes). -/
def trip150 : Trip :=
  ⟨some 381600, some 385200, some 150, some 15, some 5, some 1, some 1, some 1, some "n"⟩

/-- A sample trip with average speed exactly 150.0001 km/h. -/
def trip150plus : Trip :=
  ⟨some 381600, some 385200, some (1500001/10000), some 15, some 5, some 1, some 1,
   some 1, some "n"⟩

/-- C3 (amended): in the batch pipeline variant, a record is excluded
with reason `invalid_average_speed` only when its average speed
(reported distance / duration in hours) lies outside (0, 150], every
accepted record's speed lies in (0, 150], a record at exactly 150 km/h is
accepted, and one at 150.0001 km/h is excluded with that reason.  (The
streaming variant applies no speed-validity rule at all — see the
counterexample.) -/
theorem average_speed_rule :
    (∀ (l : List Enriched) (p : Trip × String), p ∈ (engineer_features l).2 →
      p.2 = "invalid_average_speed" → speedBatchExcSpec p) ∧
    (∀ (l : List Enriched) (f : FeatRec), f ∈ (engineer_features l).1 →
      speedBatchAccSpec f) ∧
    ((engineer_features [enrichTrip [zoneA] trip150]).2 = [] ∧
     (engineer_features [enrichTrip [zoneA] trip150]).1.map FeatRec.average_speed_kmh =
       [some 150]) ∧
    ((engineer_features [enrichTrip [zoneA] trip150plus]).1 = [] ∧
     (engineer_features [enrichTrip [zoneA] trip150plus]).2 =
       [(trip150plus, "invalid_average_speed")]) := by
  refine ⟨?_, ?_, ?_, ?_⟩
  · intro l p hp htag
    rcases engineer_features_exc_shape hp with ⟨e, -, rfl, -⟩ |
      ⟨e, -, rfl, hd, hs⟩ | ⟨e, -, rfl, -⟩
    · simp at htag
    · obtain ⟨s, hsome, hbad⟩ := (invalidSpeedMask_true_iff e.orig).mp hs
      exact ⟨⟨s, hsome, by rcases hbad with h | h <;> [exact fun hc => absurd h (not_le.mpr hc.1);
        exact fun hc => absurd h (not_lt.mpr hc.2)]⟩, hd⟩
    · simp at htag
  · intro l f hf
    obtain ⟨e, -, -, -, -, -, hspd, -, -, hm, -⟩ := engineer_features_out_shape hf
    intro s hs
    rw [hspd] at hs
    by_contra hc
    have : invalidSpeedMask e.orig = true := by
      rw [invalidSpeedMask_true_iff]
      refine ⟨s, hs, ?_⟩
      by_cases h0 : 0 < s
      · exact Or.inr (lt_of_not_le fun hle => hc ⟨h0, hle⟩)
      · exact Or.inl (le_of_not_lt h0)
    rw [this] at hm
    exact Bool.noConfusion hm
  · constructor <;>
      norm_num [engineer_features, enrichTrip, trip150, zoneA, lookupZone,
        invalidDurationMask, invalidSpeedMask, invalidRevenueMask,
        durationMinutes, averageSpeedKmh, revenuePerKm, optLe, hourOf, dayName,
        weekdayOf, isPeakHourBatch]
  · constructor <;>
      norm_num [engineer_features, enrichTrip, trip150plus, zoneA, lookupZone,
        invalidDurationMask, invalidSpeedMask, invalidRevenueMask,
        durationMinutes, averageSpeedKmh, revenuePerKm, optLe]

/-- Witness for C3 at concrete inputs. -/
theorem average_speed_rule_witness :
    (((engineer_features [enrichTrip [zoneA] trip150plus]).2.getD 0 (tripMon10, "")) ∈
       (engineer_features [enrichTrip [zoneA] trip150plus]).2 ∧
     ((engineer_features [enrichTrip [zoneA] trip150plus]).2.getD 0 (tripMon10, "")).2 =
       "invalid_average_speed" ∧
     ((engineer_features [enrichTrip [zoneA] trip150]).1.getD 0 dummyFeat) ∈
       (engineer_features [enrichTrip [zoneA] trip150]).1) ∧
    (speedBatchExcSpec ((engineer_features [enrichTrip [zoneA] trip150plus]).2.getD 0
        (tripMon10, "")) ∧
     speedBatchAccSpec ((engineer_features [enrichTrip [zoneA] trip150]).1.getD 0 dummyFeat)) := by
  have h1 : ((engineer_features [enrichTrip [zoneA] trip150plus]).2.getD 0 (tripMon10, "")) ∈
      (engineer_features [enrichTrip [zoneA] trip150plus]).2 := by
    norm_num [engineer_features, enrichTrip, trip150plus, zoneA, lookupZone,
      invalidDurationMask, invalidSpeedMask, invalidRevenueMask,
      durationMinutes, averageSpeedKmh, revenuePerKm, optLe]
  have h2 : ((engineer_features [enrichTrip [zoneA] trip150plus]).2.getD 0 (tripMon10, "")).2 =
      "invalid_average_speed" := by
    norm_num [engineer_features, enrichTrip, trip150plus, zoneA, lookupZone,
      invalidDurationMask, invalidSpeedMask, invalidRevenueMask,
      durationMinutes, averageSpeedKmh, revenuePerKm, optLe]
  have h3 : ((engineer_features [enrichTrip [zoneA] trip150]).1.getD 0 dummyFeat) ∈
      (engineer_features [enrichTrip [zoneA] trip150]).1 := by
    norm_num [engineer_features, enrichTrip, trip150, zoneA, lookupZone,
      invalidDurationMask, invalidSpeedMask, invalidRevenueMask,
      durationMinutes, averageSpeedKmh, revenuePerKm, optLe]
  exact ⟨⟨h1, h2, h3⟩, average_speed_rule.1 _ _ h1 h2, average_speed_rule.2.1 _ _ h3⟩

/-- A sample streaming-cleaner row whose average speed is 321.868 km/h. -/
def rowFast : BRow :=
  ⟨some 0, some 360, 81/2, -74, 81/2, -74, 20, 10, 0, 1, "card"⟩

/-- Counterexample for C3 as stated: the streaming variant emits a record
whose average speed is 321.868 km/h instead of excluding it — it applies
no speed-validity check. -/
theorem average_speed_rule_counterexample :
    (calculate_features rowFast 2).map BOut.avg_speed_kmh = some (160934/500) ∧
    ¬((160934 : ℚ)/500 ≤ 150) := by
  constructor
  · norm_num [calculate_features, rowFast, is_valid_coordinate, NYC_MIN_LAT, NYC_MAX_LAT,
      NYC_MIN_LON, NYC_MAX_LON, MILE_TO_KM, hourOf, weekdayOf]
  · norm_num

/-- Conversion contract of the streaming variant: the stored distance is
the reported miles value multiplied by 1.60934 exactly once, and all
downstream metrics are computed from that converted value. -/
def backendConversionSpec (row : BRow) (out : BOut) : Prop :=
  out.trip_distance_km = row.trip_distance * MILE_TO_KM ∧
  out.avg_speed_kmh = out.trip_distance_km / out.trip_duration_sec * 3600 ∧
  (0 < out.trip_distance_km → out.fare_per_km = row.fare_amount / out.trip_distance_km) ∧
  out.tripEfficiency = out.haversine_km /
    (if out.trip_distance_km = 0 then 1 else out.trip_distance_km)

/-- C5 (amended): the streaming variant multiplies the reported miles
distance by exactly 1.60934 once, before average speed, fare per km and
the efficiency ratio are derived from the converted value.  (The batch
variant performs no unit conversion at all — see the counterexample.) -/
theorem distance_conversion_rule (row : BRow) (hav : ℚ) (out : BOut)
    (h : calculate_features row hav = some out) : backendConversionSpec row out := by
  obtain ⟨p, -, -, hkm, hhav, hspd, hfare, -, -, -, -, heff, -⟩ :=
    calculate_features_fields h
  exact ⟨hkm, hspd, hfare, heff⟩

/-- Witness for C5 at a concrete streaming row. -/
theorem distance_conversion_rule_witness :
    (calculate_features rowB 1 = some ((calculate_features rowB 1).getD dummyBOut)) ∧
    backendConversionSpec rowB ((calculate_features rowB 1).getD dummyBOut) := by
  have h1 : calculate_features rowB 1 = some ((calculate_features rowB 1).getD dummyBOut) := by
    norm_num [calculate_features, rowB, is_valid_coordinate, NYC_MIN_LAT, NYC_MAX_LAT,
      NYC_MIN_LON, NYC_MAX_LON, MILE_TO_KM, hourOf, weekdayOf]
  exact ⟨h1, distance_conversion_rule rowB 1 _ h1⟩

/-- A sample trip with reported distance 2 and a 60-minute duration. -/
def trip2 : Trip :=
  ⟨some 381600, some 385200, some 2, some 10, some 5, some 1, some 1, some 1, some "n"⟩

/-- Counterexample for C5 as stated: the batch variant computes average
speed directly from the reported distance with no 1.60934 conversion —
a 2-unit distance over one hour yields speed 2, not 2 × 1.60934. -/
theorem distance_conversion_counterexample :
    (engineer_features [enrichTrip [zoneA] trip2]).1.map FeatRec.average_speed_kmh =
      [some 2] ∧
    (2 : ℚ) ≠ 2 * MILE_TO_KM := by
  constructor
  · norm_num [engineer_features, enrichTrip, trip2, zoneA, lookupZone,
      invalidDurationMask, invalidSpeedMask, invalidRevenueMask,
      durationMinutes, averageSpeedKmh, revenuePerKm, optLe]
  · norm_num [MILE_TO_KM]

/-- Ratio contract of the streaming variant: the idle-time ratio is
clamped into [0,1]; the trip-efficiency ratio is the haversine distance
divided by Python's `trip_distance_km or 1` (the distance when nonzero,
else 1), with no clamping. -/
def streamingRatioSpec (out : BOut) : Prop :=
  0 ≤ out.idleTimeR ∧ out.idleTimeR ≤ 1 ∧
  out.tripEfficiency = out.haversine_km /
    (if out.trip_distance_km = 0 then 1 else out.trip_distance_km)

/-- C6 (amended): for every record emitted by the streaming feature
computation the idle-time ratio lies in [0,1] (it is clamped), but the
trip-efficiency ratio is not clamped: it equals haversine / (reported
distance when nonzero, else 1) and can exceed 1 — see the
counterexample. -/
theorem streaming_ratio_bounds (row : BRow) (hav : ℚ) (out : BOut)
    (h : calculate_features row hav = some out) : streamingRatioSpec out := by
  obtain ⟨p, -, -, -, -, -, -, -, -, -, hidle, heff, -⟩ := calculate_features_fields h
  refine ⟨?_, ?_, heff⟩
  · rw [hidle]; exact le_max_left 0 _
  · rw [hidle]
    exact max_le (by norm_num) (min_le_left 1 _)

/-- Witness for C6 at a concrete streaming row. -/
theorem streaming_ratio_bounds_witness :
    (calculate_features rowB 1 = some ((calculate_features rowB 1).getD dummyBOut)) ∧
    streamingRatioSpec ((calculate_features rowB 1).getD dummyBOut) := by
  have h1 : calculate_features rowB 1 = some ((calculate_features rowB 1).getD dummyBOut) := by
    norm_num [calculate_features, rowB, is_valid_coordinate, NYC_MIN_LAT, NYC_MAX_LAT,
      NYC_MIN_LON, NYC_MAX_LON, MILE_TO_KM, hourOf, weekdayOf]
  exact ⟨h1, streaming_ratio_bounds rowB 1 _ h1⟩

/-- A sample streaming-cleaner row with a 0.1-mile reported distance. -/
def rowTiny : BRow :=
  ⟨some 0, some 3600, 81/2, -74, 81/2, -74, 1/10, 2, 0, 1, "card"⟩

/-- Counterexample for C6 as stated: with haversine distance 2 km and a
0.1-mile (0.160934 km) reported distance, the emitted trip-efficiency
ratio is 1000000/80467 ≈ 12.43, far outside [0,1]. -/
theorem streaming_ratio_counterexample :
    (calculate_features rowTiny 2).map BOut.tripEfficiency = some (1000000/80467) ∧
    (1 : ℚ) < 1000000/80467 := by
  constructor
  · norm_num [calculate_features, rowTiny, is_valid_coordinate, NYC_MIN_LAT, NYC_MAX_LAT,
      NYC_MIN_LON, NYC_MAX_LON, MILE_TO_KM, hourOf, weekdayOf]
  · norm_num

theorem mem_clean_exc_invalid {trips : List Trip} {zones : List Zone} {t : Trip} :
    (t, "invalid_logical_values") ∈ (clean_trip_data trips zones).2 ↔
      t ∈ trips ∧ missingEssentials t = false ∧ invalidLogical t = true := by
  simp only [clean_trip_data]
  constructor
  · intro hmem
    rcases List.mem_append.mp hmem with h123 | h4
    · rcases List.mem_append.mp h123 with h12 | h3
      · rcases List.mem_append.mp h12 with h1 | h2
        · obtain ⟨u, -, heq⟩ := List.mem_map.mp h1
          have := congrArg Prod.snd heq
          simp at this
        · obtain ⟨u, hu, heq⟩ := List.mem_map.mp h2
          have hfst : u = t := congrArg Prod.fst heq
          subst hfst
          obtain ⟨hu1, hinv⟩ := List.mem_filter.mp hu
          obtain ⟨htrips, hmiss⟩ := List.mem_filter.mp hu1
          exact ⟨htrips, by simpa using hmiss, hinv⟩
      · obtain ⟨u, -, heq⟩ := List.mem_map.mp h3
        have := congrArg Prod.snd heq
        simp at this
    · obtain ⟨u, -, heq⟩ := List.mem_map.mp h4
      have := congrArg Prod.snd heq
      simp at this
  · rintro ⟨htl, hmiss, hinv⟩
    have hi : (t, "invalid_logical_values") ∈
        (List.filter invalidLogical
          (List.filter (fun u => !missingEssentials u) trips)).map
          (fun u => (u, "invalid_logical_values")) :=
      List.mem_map.mpr ⟨t,
        List.mem_filter.mpr ⟨List.mem_filter.mpr ⟨htl, by simp [hmiss]⟩, hinv⟩, rfl⟩
    exact List.mem_append_left _ (List.mem_append_left _ (List.mem_append_right _ hi))

/-- A sample trip with reported distance exactly 0 and all other fields
valid. -/
def tripDist0 : Trip :=
  ⟨some 381600, some 385200, some 0, some 10, some 5, some 1, some 1, some 1, some "n"⟩

/-- A sample trip with fare amount exactly 0 and all other fields valid. -/
def tripFare0 : Trip :=
  ⟨some 381600, some 385200, some 2, some 10, some 0, some 1, some 1, some 1, some "n"⟩

/-- C2 (amended): for a record that passed the missing-essentials filter,
the cleaning stage excludes it with reason `invalid_logical_values` iff
trip distance ≤ 0, or total amount < 0, or fare amount < 0, or passenger
count ≤ 0, or dropoff ≤ pickup; a record with distance exactly 0 is
excluded with this reason, but — the fare comparison being strict — a
record with fare exactly 0 and all other fields valid is NOT excluded: it
passes the whole cleaning stage. -/
theorem invalid_logical_filter_rule :
    (∀ (trips : List Trip) (zones : List Zone) (t : Trip)
        (dist tot fare pc : ℚ) (pu dof : ℤ),
      t ∈ trips →
      missingEssentials t = false →
      t.trip_distance = some dist → t.total_amount = some tot →
      t.fare_amount = some fare → t.passenger_count = some pc →
      t.tpep_pickup_datetime = some pu → t.tpep_dropoff_datetime = some dof →
      (((t, "invalid_logical_values") ∈ (clean_trip_data trips zones).2) ↔
        (dist ≤ 0 ∨ tot < 0 ∨ fare < 0 ∨ pc ≤ 0 ∨ dof ≤ pu))) ∧
    ((clean_trip_data [tripDist0] [zoneA]).2 = [(tripDist0, "invalid_logical_values")] ∧
     (clean_trip_data [tripDist0] [zoneA]).1 = []) ∧
    ((clean_trip_data [tripFare0] [zoneA]).2 = [] ∧
     (clean_trip_data [tripFare0] [zoneA]).1.map Enriched.orig = [tripFare0]) := by
  refine ⟨?_, ?_, ?_⟩
  · intro trips zones t dist tot fare pc pu dof htl hmiss hdist htot hfare hpc hpu hdof
    rw [mem_clean_exc_invalid]
    simp [htl, hmiss, invalidLogical, optLe, optLt, optLeT, hdist, htot, hfare, hpc,
      hpu, hdof]
    tauto
  · constructor <;>
      norm_num [clean_trip_data, tripDist0, zoneA, missingEssentials, invalidLogical,
        optLe, optLt, optLeT, dedup, dupKey, enrichTrip, lookupZone, unmatchedZone]
  · constructor <;>
      norm_num [clean_trip_data, tripFare0, zoneA, missingEssentials, invalidLogical,
        optLe, optLt, optLeT, dedup, dupKey, enrichTrip, lookupZone, unmatchedZone,
        normalizeEnriched_orig]

/-- Witness for C2 at a concrete input. -/
theorem invalid_logical_filter_rule_witness :
    (tripDist0 ∈ [tripDist0] ∧ missingEssentials tripDist0 = false ∧
     tripDist0.trip_distance = some 0 ∧ tripDist0.total_amount = some 10 ∧
     tripDist0.fare_amount = some 5 ∧ tripDist0.passenger_count = some 1 ∧
     tripDist0.tpep_pickup_datetime = some 381600 ∧
     tripDist0.tpep_dropoff_datetime = some 385200) ∧
    (((tripDist0, "invalid_logical_values") ∈ (clean_trip_data [tripDist0] [zoneA]).2) ↔
      ((0 : ℚ) ≤ 0 ∨ (10 : ℚ) < 0 ∨ (5 : ℚ) < 0 ∨ (1 : ℚ) ≤ 0 ∨
       (385200 : ℤ) ≤ 381600)) :=
  ⟨⟨List.mem_singleton.mpr rfl, rfl, rfl, rfl, rfl, rfl, rfl, rfl⟩,
   invalid_logical_filter_rule.1 [tripDist0] [zoneA] tripDist0 0 10 5 1 381600 385200
     (List.mem_singleton.mpr rfl) rfl rfl rfl rfl rfl rfl rfl⟩

/-- Counterexample for C2 as stated: the claim says a record with fare
amount exactly 0 (all other fields valid) is excluded with reason
`invalid_logical_values`, but the filter's fare comparison is strict
(`fare_amount < 0`), so the record is accepted by the whole cleaning
stage and appears in no exclusion entry. -/
theorem invalid_logical_filter_counterexample :
    (tripFare0, "invalid_logical_values") ∉ (clean_trip_data [tripFare0] [zoneA]).2 ∧
    (clean_trip_data [tripFare0] [zoneA]).1.map Enriched.orig = [tripFare0] := by
  constructor <;>
    norm_num [clean_trip_data, tripFare0, zoneA, missingEssentials, invalidLogical,
      optLe, optLt, optLeT, dedup, dupKey, enrichTrip, lookupZone, unmatchedZone,
      normalizeEnriched_orig]

/-- Rows surviving the missing-essentials and logical-validity filters,
in input order: the input of the duplicate filter. -/
def cleanSurvivors (trips : List Trip) : List Trip :=
  (trips.filter (fun u => !missingEssentials u)).filter (fun u => !invalidLogical u)

theorem lookupZone_eq_some {zones : List Zone} {k : Option ℕ} {z : Zone}
    (h : lookupZone zones k = some z) : z ∈ zones ∧ k = some z.locationid := by
  rcases k with _ | i
  · simp [lookupZone] at h
  · have h' : zones.find? (fun z => z.locationid == i) = some z := h
    have hm := List.mem_of_find?_eq_some h'
    have hp := List.find?_some h'
    have : z.locationid = i := by simpa using hp
    exact ⟨hm, by rw [this]⟩

theorem dedup_mem_kept : ∀ (l : List Trip) (seen : List (Option ℤ × Option ℤ × Option ℕ × Option ℕ))
    (t : Trip), t ∈ (dedup l seen).1 → t ∈ l
  | [], _, _, h => by simp [dedup] at h
  | x :: xs, seen, t, h => by
    by_cases hk : dupKey x ∈ seen
    · simp only [dedup, if_pos hk] at h
      exact List.mem_cons_of_mem x (dedup_mem_kept xs seen t h)
    · simp only [dedup, if_neg hk] at h
      rcases List.mem_cons.mp h with rfl | h'
      · exact List.mem_cons_self t xs
      · exact List.mem_cons_of_mem x (dedup_mem_kept xs _ t h')

theorem dedup_mem_dups : ∀ (l : List Trip) (seen : List (Option ℤ × Option ℤ × Option ℕ × Option ℕ))
    (t : Trip), t ∈ (dedup l seen).2 → t ∈ l
  | [], _, _, h => by simp [dedup] at h
  | x :: xs, seen, t, h => by
    by_cases hk : dupKey x ∈ seen
    · simp only [dedup, if_pos hk] at h
      rcases List.mem_cons.mp h with rfl | h'
      · exact List.mem_cons_self t xs
      · exact List.mem_cons_of_mem x (dedup_mem_dups xs seen t h')
    · simp only [dedup, if_neg hk] at h
      exact List.mem_cons_of_mem x (dedup_mem_dups xs _ t h)

theorem clean_accepted_shape {trips : List Trip} {zones : List Zone} {e : Enriched}
    (he : e ∈ (clean_trip_data trips zones).1) :
    ∃ t, t ∈ (dedup (cleanSurvivors trips) []).1 ∧
      e = normalizeEnriched (enrichTrip zones t) ∧
      unmatchedZone (enrichTrip zones t) = false := by
  simp only [clean_trip_data, List.mem_map] at he
  obtain ⟨e', he', rfl⟩ := he
  obtain ⟨he'1, hmask⟩ := List.mem_filter.mp he'
  obtain ⟨t, ht, rfl⟩ := List.mem_map.mp he'1
  exact ⟨t, ht, rfl, by simpa using hmask⟩

theorem clean_exc_shape {trips : List Trip} {zones : List Zone} {p : Trip × String}
    (hp : p ∈ (clean_trip_data trips zones).2) :
    (∃ t ∈ trips, p = (t, "missing_essential_values") ∧ missingEssentials t = true) ∨
    (∃ t ∈ trips, p = (t, "invalid_logical_values") ∧ missingEssentials t = false ∧
      invalidLogical t = true) ∨
    (∃ t, t ∈ (dedup (cleanSurvivors trips) []).2 ∧ p = (t, "duplicate_trip")) ∨
    (∃ t, t ∈ (dedup (cleanSurvivors trips) []).1 ∧ p = (t, "unmatched_zone_lookup") ∧
      unmatchedZone (enrichTrip zones t) = true) := by
  simp only [clean_trip_data] at hp
  rcases List.mem_append.mp hp with h123 | h4
  · rcases List.mem_append.mp h123 with h12 | h3
    · rcases List.mem_append.mp h12 with h1 | h2
      · obtain ⟨u, hu, heq⟩ := List.mem_map.mp h1
        obtain ⟨hul, hm⟩ := List.mem_filter.mp hu
        exact Or.inl ⟨u, hul, heq.symm, hm⟩
      · obtain ⟨u, hu, heq⟩ := List.mem_map.mp h2
        obtain ⟨hu1, hinv⟩ := List.mem_filter.mp hu
        obtain ⟨hul, hm⟩ := List.mem_filter.mp hu1
        exact Or.inr (Or.inl ⟨u, hul, heq.symm, by simpa using hm, hinv⟩)
    · obtain ⟨u, hu, heq⟩ := List.mem_map.mp h3
      exact Or.inr (Or.inr (Or.inl ⟨u, hu, heq.symm⟩))
  · obtain ⟨e', he', heq⟩ := List.mem_map.mp h4
    obtain ⟨he'1, hmask⟩ := List.mem_filter.mp he'
    obtain ⟨t, ht, rfl⟩ := List.mem_map.mp he'1
    exact Or.inr (Or.inr (Or.inr ⟨t, ht, heq.symm, hmask⟩))

/-- Join contract for one accepted row: each side's borough/zone columns
are non-null and come from the zone record whose location id equals the
trip's location id; the borough is title-cased only after the join, the
zone name is taken verbatim. -/
def joinSpec (zones : List Zone) (e : Enriched) : Prop :=
  ∃ pz dz, pz ∈ zones ∧ dz ∈ zones ∧
    e.orig.pulocationid = some pz.locationid ∧
    e.orig.dolocationid = some dz.locationid ∧
    e.pickup_borough = some (titleCase pz.borough) ∧
    e.pickup_zone = some pz.zone ∧
    e.dropoff_borough = some (titleCase dz.borough) ∧
    e.dropoff_zone = some dz.zone

/-- C7: with unique zone location ids, every record accepted by the
cleaning stage carries non-null pickup/dropoff borough and zone columns
resolved from the zone record matching its location ids via the left
join, with borough normalization applied only after the join; any record
excluded with reason `unmatched_zone_lookup` had a failed lookup on at
least one side. -/
theorem zone_join_correctness (trips : List Trip) (zones : List Zone)
    (huniq : (zones.map Zone.locationid).Nodup) :
    (∀ e ∈ (clean_trip_data trips zones).1, joinSpec zones e) ∧
    (∀ p ∈ (clean_trip_data trips zones).2, p.2 = "unmatched_zone_lookup" →
      lookupZone zones p.1.pulocationid = none ∨
      lookupZone zones p.1.dolocationid = none) := by
  constructor
  · intro e he
    obtain ⟨t, -, rfl, hmask⟩ := clean_accepted_shape he
    rcases hpz : lookupZone zones t.pulocationid with _ | pz
    · simp [unmatchedZone, enrichTrip, hpz] at hmask
    rcases hdz : lookupZone zones t.dolocationid with _ | dz
    · simp [unmatchedZone, enrichTrip, hpz, hdz] at hmask
    obtain ⟨hpzm, hpuk⟩ := lookupZone_eq_some hpz
    obtain ⟨hdzm, hdok⟩ := lookupZone_eq_some hdz
    exact ⟨pz, dz, hpzm, hdzm, by simpa [normalizeEnriched, enrichTrip] using hpuk,
      by simpa [normalizeEnriched, enrichTrip] using hdok,
      by simp [normalizeEnriched, enrichTrip, hpz],
      by simp [normalizeEnriched, enrichTrip, hpz],
      by simp [normalizeEnriched, enrichTrip, hdz],
      by simp [normalizeEnriched, enrichTrip, hdz]⟩
  · intro p hp htag
    rcases clean_exc_shape hp with ⟨u, -, rfl, -⟩ | ⟨u, -, rfl, -⟩ |
      ⟨u, -, rfl⟩ | ⟨u, -, rfl, hmask⟩
    · simp at htag
    · simp at htag
    · simp at htag
    · rcases hpz : lookupZone zones u.pulocationid with _ | pz
      · exact Or.inl rfl
      · rcases hdz : lookupZone zones u.dolocationid with _ | dz
        · exact Or.inr rfl
        · simp [unmatchedZone, enrichTrip, hpz, hdz] at hmask

/-- Witness for C7 at a concrete input. -/
theorem zone_join_correctness_witness :
    (([zoneA].map Zone.locationid).Nodup ∧
     normalizeEnriched (enrichTrip [zoneA] tripMon10) ∈
       (clean_trip_data [tripMon10] [zoneA]).1) ∧
    joinSpec [zoneA] (normalizeEnriched (enrichTrip [zoneA] tripMon10)) := by
  have h1 : ([zoneA].map Zone.locationid).Nodup := by simp
  have h2 : normalizeEnriched (enrichTrip [zoneA] tripMon10) ∈
      (clean_trip_data [tripMon10] [zoneA]).1 := by
    norm_num [clean_trip_data, tripMon10, zoneA, missingEssentials, invalidLogical,
      optLe, optLt, optLeT, dedup, dupKey, unmatchedZone, enrichTrip, lookupZone]
  exact ⟨⟨h1, h2⟩, (zone_join_correctness [tripMon10] [zoneA] h1).1 _ h2⟩

/-- The all-stages-skipped trace: a run that recomputed nothing and
rewrote no artifact. -/
def allSkippedTrace : RunTrace :=
  ⟨.skipped, .skipped, .skipped, .skipped, .skipped⟩

/-- C9: running the pipeline a second time on identical inputs with all
artifacts of the first run still present changes no artifact (the
cleaned-trip, zone, geo and exclusion artifacts are identical) and
performs zero recomputation — every stage is skipped; moreover, feature
engineering is skipped exactly when the existing cleaned-trip artifact
already carries the `trip_duration_minutes` column. -/
theorem pipeline_idempotent {γ δ : Type} (cleanGeo : δ → γ) (inp : RawInputs δ)
    (s : Store γ) :
    ((run_pipeline cleanGeo inp (run_pipeline cleanGeo inp s).1).1 =
      (run_pipeline cleanGeo inp s).1) ∧
    ((run_pipeline cleanGeo inp (run_pipeline cleanGeo inp s).1).2 = allSkippedTrace) ∧
    (∀ art, s.cleanedTrips = some art →
      ((run_pipeline cleanGeo inp s).2.featA = Act.skipped ↔ hasDurationCol art = true)) := by
  obtain ⟨g, z, ct, ex⟩ := s
  refine ⟨?_, ?_, ?_⟩
  · rcases ct with _ | art
    · rcases g <;> rcases z <;>
        simp [run_pipeline, merge_exclude_records, allSkippedTrace]
    · rcases art with rows | f <;> rcases g <;> rcases z <;>
        simp [run_pipeline, merge_exclude_records, allSkippedTrace]
  · rcases ct with _ | art
    · rcases g <;> rcases z <;>
        simp [run_pipeline, merge_exclude_records, allSkippedTrace]
    · rcases art with rows | f <;> rcases g <;> rcases z <;>
        simp [run_pipeline, merge_exclude_records, allSkippedTrace]
  · intro art hart
    cases hart
    rcases art with rows | f <;>
      simp [run_pipeline, hasDurationCol]

/-- Witness for C9 at a concrete input. -/
theorem pipeline_idempotent_witness :
    ((⟨none, none, some (TripsArtifact.engineered []), none⟩ : Store Unit).cleanedTrips =
      some (TripsArtifact.engineered [])) ∧
    ((run_pipeline (fun _ : Unit => ()) ⟨[], [], ()⟩
        (⟨none, none, some (TripsArtifact.engineered []), none⟩ : Store Unit)).2.featA =
      Act.skipped ↔ hasDurationCol (TripsArtifact.engineered []) = true) :=
  ⟨rfl, (pipeline_idempotent (fun _ : Unit => ()) ⟨[], [], ()⟩
    ⟨none, none, some (TripsArtifact.engineered []), none⟩).2.2
      (TripsArtifact.engineered []) rfl⟩

theorem dedup_perm : ∀ (l : List Trip)
    (seen : List (Option ℤ × Option ℤ × Option ℕ × Option ℕ)),
    List.Perm ((dedup l seen).1 ++ (dedup l seen).2) l
  | [], _ => by simp [dedup]
  | t :: ts, seen => by
    by_cases hk : dupKey t ∈ seen
    · simp only [dedup, if_pos hk]
      exact List.Perm.trans List.perm_middle (List.Perm.cons t (dedup_perm ts seen))
    · simp only [dedup, if_neg hk]
      exact List.Perm.cons t (dedup_perm ts (dupKey t :: seen))

theorem dedup_dups_key : ∀ (l : List Trip)
    (seen : List (Option ℤ × Option ℤ × Option ℕ × Option ℕ)) (t : Trip),
    t ∈ (dedup l seen).2 →
    dupKey t ∈ seen ∨ ∃ u ∈ (dedup l seen).1, dupKey u = dupKey t
  | [], _, _, h => by simp [dedup] at h
  | x :: xs, seen, t, h => by
    by_cases hk : dupKey x ∈ seen
    · simp only [dedup, if_pos hk] at h ⊢
      rcases List.mem_cons.mp h with rfl | h'
      · exact Or.inl hk
      · rcases dedup_dups_key xs seen t h' with hs | ⟨u, hu, hk'⟩
        · exact Or.inl hs
        · exact Or.inr ⟨u, hu, hk'⟩
    · simp only [dedup, if_neg hk] at h ⊢
      rcases dedup_dups_key xs (dupKey x :: seen) t h with hs | ⟨u, hu, hk'⟩
      · rcases List.mem_cons.mp hs with heq | hs'
        · exact Or.inr ⟨x, List.mem_cons_self x _, heq.symm⟩
        · exact Or.inl hs'
      · exact Or.inr ⟨u, List.mem_cons_of_mem x hu, hk'⟩

theorem missingEssentials_false_elim {t : Trip} (h : missingEssentials t = false) :
    ∃ pu dof dist tot puid doid, t.tpep_pickup_datetime = some pu ∧
      t.tpep_dropoff_datetime = some dof ∧ t.trip_distance = some dist ∧
      t.total_amount = some tot ∧ t.pulocationid = some puid ∧
      t.dolocationid = some doid := by
  rcases hp : t.tpep_pickup_datetime with _ | pu
  · simp [missingEssentials, hp] at h
  rcases hd : t.tpep_dropoff_datetime with _ | dof
  · simp [missingEssentials, hp, hd] at h
  rcases hdist : t.trip_distance with _ | dist
  · simp [missingEssentials, hp, hd, hdist] at h
  rcases htot : t.total_amount with _ | tot
  · simp [missingEssentials, hp, hd, hdist, htot] at h
  rcases hpid : t.pulocationid with _ | puid
  · simp [missingEssentials, hp, hd, hdist, htot, hpid] at h
  rcases hdid : t.dolocationid with _ | doid
  · simp [missingEssentials, hp, hd, hdist, htot, hpid, hdid] at h
  exact ⟨pu, dof, dist, tot, puid, doid, rfl, rfl, rfl, rfl, rfl, rfl⟩

theorem unmatchedZone_enrich_iff (zones : List Zone) (t : Trip) :
    unmatchedZone (enrichTrip zones t) = true ↔
      lookupZone zones t.pulocationid = none ∨
      lookupZone zones t.dolocationid = none := by
  rcases hpz : lookupZone zones t.pulocationid with _ | pz <;>
    rcases hdz : lookupZone zones t.dolocationid with _ | dz <;>
      simp [unmatchedZone, enrichTrip, hpz, hdz]

/-- First-violated-filter soundness for one exclusion-ledger entry
(record `t`, recorded reason `r`): the reason is among the seven fixed
reasons, the record violates the named filter's predicate, and it passes
every earlier filter's predicate (duplicate status being positional, a
duplicate entry is one whose key also occurs on another record surviving
the two value filters). -/
def reasonSound (trips : List Trip) (zones : List Zone) (t : Trip) (r : String) : Prop :=
  (r = "missing_essential_values" → missingEssentials t = true) ∧
  (r = "invalid_logical_values" → missingEssentials t = false ∧
    invalidLogical t = true) ∧
  (r = "duplicate_trip" → missingEssentials t = false ∧ invalidLogical t = false ∧
    2 ≤ (cleanSurvivors trips).countP (fun u => decide (dupKey u = dupKey t))) ∧
  (r = "unmatched_zone_lookup" → missingEssentials t = false ∧
    invalidLogical t = false ∧
    (lookupZone zones t.pulocationid = none ∨ lookupZone zones t.dolocationid = none)) ∧
  (r = "invalid_trip_duration" → missingEssentials t = false ∧
    invalidLogical t = false ∧
    lookupZone zones t.pulocationid ≠ none ∧ lookupZone zones t.dolocationid ≠ none ∧
    ∃ m, durationMinutes t = some m ∧ m ≤ 0) ∧
  (r = "invalid_average_speed" → missingEssentials t = false ∧
    invalidLogical t = false ∧
    lookupZone zones t.pulocationid ≠ none ∧ lookupZone zones t.dolocationid ≠ none ∧
    (∃ m, durationMinutes t = some m ∧ 0 < m) ∧
    ∃ s, averageSpeedKmh t = some s ∧ ¬(0 < s ∧ s ≤ 150)) ∧
  (r = "invalid_revenue_per_km" → missingEssentials t = false ∧
    invalidLogical t = false ∧
    lookupZone zones t.pulocationid ≠ none ∧ lookupZone zones t.dolocationid ≠ none ∧
    (∃ m, durationMinutes t = some m ∧ 0 < m) ∧
    (∃ s, averageSpeedKmh t = some s ∧ 0 < s ∧ s ≤ 150) ∧
    ∃ v, revenuePerKm t = some v ∧ v ≤ 0) ∧
  r ∈ ["missing_essential_values", "invalid_logical_values", "duplicate_trip",
       "unmatched_zone_lookup", "invalid_trip_duration", "invalid_average_speed",
       "invalid_revenue_per_km"]

/-- A record surviving both stages passes every filter's predicate. -/
def acceptedSound (zones : List Zone) (t : Trip) : Prop :=
  missingEssentials t = false ∧ invalidLogical t = false ∧
  lookupZone zones t.pulocationid ≠ none ∧ lookupZone zones t.dolocationid ≠ none ∧
  (∃ m, durationMinutes t = some m ∧ 0 < m) ∧
  (∃ s, averageSpeedKmh t = some s ∧ 0 < s ∧ s ≤ 150) ∧
  (∃ v, revenuePerKm t = some v ∧ 0 < v)

theorem pipelineOnce_ledger (trips : List Trip) (zones : List Zone) :
    (pipelineOnce trips zones).2 =
      ((clean_trip_data trips zones).2.map (fun p => (p, "cleaning"))) ++
      ((engineer_features (clean_trip_data trips zones).1).2.map
        (fun p => (p, "feature_engineering"))) := by
  simp only [pipelineOnce]
  rcases hc : (clean_trip_data trips zones).2 with _ | ⟨x, xs⟩ <;>
    rcases he : (engineer_features (clean_trip_data trips zones).1).2 with _ | ⟨y, ys⟩ <;>
      simp [merge_exclude_records, hc, he]

theorem map_orig_enrich (zones : List Zone) (l : List Trip) :
    (l.map (enrichTrip zones)).map Enriched.orig = l := by
  rw [List.map_map]
  have h : (Enriched.orig ∘ enrichTrip zones) = id := funext fun x => rfl
  rw [h, List.map_id]

theorem map_fst_pair (s : String) (l : List Trip) :
    (l.map (fun t => (t, s))).map Prod.fst = l := by
  rw [List.map_map]
  have h : (Prod.fst ∘ fun t : Trip => (t, s)) = id := funext fun t => rfl
  rw [h, List.map_id]

theorem map_fst_payload (s : String) (l : List Enriched) :
    (l.map (fun e => (e.orig, s))).map Prod.fst = l.map Enriched.orig := by
  rw [List.map_map]
  rfl

theorem map_orig_normalize (l : List Enriched) :
    (l.map normalizeEnriched).map Enriched.orig = l.map Enriched.orig := by
  rw [List.map_map]
  rfl

theorem engineer_out_map_orig (l : List Enriched) :
    (engineer_features l).1.map FeatRec.orig =
      (((l.filter (fun e => !invalidDurationMask e.orig)).filter
        (fun e => !invalidSpeedMask e.orig)).filter
        (fun e => !invalidRevenueMask e.orig)).map Enriched.orig := by
  simp only [engineer_features]
  rw [List.map_map]
  exact List.map_congr_left fun e _ => rfl

theorem engineer_exc_map_fst (l : List Enriched) :
    (engineer_features l).2.map Prod.fst =
      (l.filter (fun e => invalidDurationMask e.orig)).map Enriched.orig ++
      ((l.filter (fun e => !invalidDurationMask e.orig)).filter
        (fun e => invalidSpeedMask e.orig)).map Enriched.orig ++
      (((l.filter (fun e => !invalidDurationMask e.orig)).filter
        (fun e => !invalidSpeedMask e.orig)).filter
        (fun e => invalidRevenueMask e.orig)).map Enriched.orig := by
  simp only [engineer_features]
  rw [List.map_append, List.map_append]
  rw [map_fst_payload, map_fst_payload, map_fst_payload]

theorem clean_partition (trips : List Trip) (zones : List Zone) :
    List.Perm ((clean_trip_data trips zones).1.map Enriched.orig ++
      (clean_trip_data trips zones).2.map Prod.fst) trips := by
  have h1 := (List.filter_append_perm missingEssentials trips).count_eq
  have h2 := (List.filter_append_perm invalidLogical
    (trips.filter (fun u => !missingEssentials u))).count_eq
  have h3 := (dedup_perm (cleanSurvivors trips) []).count_eq
  have h4 := ((List.filter_append_perm unmatchedZone
      ((dedup (cleanSurvivors trips) []).1.map (enrichTrip zones))).map
      Enriched.orig).count_eq
  simp only [clean_trip_data]
  rw [map_orig_normalize]
  rw [List.map_append, List.map_append, List.map_append]
  rw [map_fst_pair, map_fst_pair, map_fst_pair, map_fst_payload]
  rw [List.perm_iff_count]
  intro a
  have h1a := h1 a
  have h2a := h2 a
  have h3a := h3 a
  have h4a := h4 a
  rw [List.map_append, map_orig_enrich] at h4a
  simp only [cleanSurvivors] at h3a h4a
  simp only [List.count_append] at h1a h2a h3a h4a ⊢
  omega

theorem engineer_partition (l : List Enriched) :
    List.Perm ((engineer_features l).1.map FeatRec.orig ++
      (engineer_features l).2.map Prod.fst) (l.map Enriched.orig) := by
  have h1 := ((List.filter_append_perm (fun e => invalidDurationMask e.orig) l).map
    Enriched.orig).count_eq
  have h2 := ((List.filter_append_perm (fun e => invalidSpeedMask e.orig)
    (l.filter (fun e => !invalidDurationMask e.orig))).map Enriched.orig).count_eq
  have h3 := ((List.filter_append_perm (fun e => invalidRevenueMask e.orig)
    ((l.filter (fun e => !invalidDurationMask e.orig)).filter
      (fun e => !invalidSpeedMask e.orig))).map Enriched.orig).count_eq
  rw [engineer_out_map_orig, engineer_exc_map_fst]
  rw [List.perm_iff_count]
  intro a
  have h1a := h1 a
  have h2a := h2 a
  have h3a := h3 a
  simp only [List.map_append, List.count_append] at h1a h2a h3a ⊢
  omega

theorem optLe_false_some {x b : ℚ} (h : optLe (some x) b = false) : ¬ x ≤ b := by
  simpa [optLe] using h

theorem durationMinutes_some {t : Trip} {pu dof : ℤ}
    (hp : t.tpep_pickup_datetime = some pu) (hd : t.tpep_dropoff_datetime = some dof) :
    durationMinutes t = some (((dof - pu : ℤ) : ℚ) / 60) := by
  simp [durationMinutes, hp, hd]

theorem averageSpeedKmh_some {t : Trip} {dist m : ℚ}
    (hdist : t.trip_distance = some dist) (hdm : durationMinutes t = some m)
    (hm : m ≠ 0) : averageSpeedKmh t = some (dist / (m / 60)) := by
  simp [averageSpeedKmh, hdist, hdm, hm]

theorem revenuePerKm_some {t : Trip} {tot dist : ℚ}
    (htot : t.total_amount = some tot) (hdist : t.trip_distance = some dist)
    (hd0 : dist ≠ 0) : revenuePerKm t = some (tot / dist) := by
  simp [revenuePerKm, htot, hdist, hd0]

theorem invalidSpeedMask_false_some {t : Trip} {s : ℚ}
    (hs : averageSpeedKmh t = some s) (h : invalidSpeedMask t = false) :
    0 < s ∧ s ≤ 150 := by
  have h' : ¬(s ≤ 0 ∨ 150 < s) := by
    simp only [invalidSpeedMask, hs] at h
    exact of_decide_eq_false h
  push_neg at h'
  exact ⟨h'.1, h'.2⟩

theorem invalidRevenueMask_false_some {t : Trip} {v : ℚ}
    (hv : revenuePerKm t = some v) (h : invalidRevenueMask t = false) : 0 < v := by
  have h' : ¬(v ≤ 0) := by
    simp only [invalidRevenueMask, hv] at h
    exact of_decide_eq_false h
  exact lt_of_not_le h'

theorem invalidLogical_false_dist {t : Trip} (h : invalidLogical t = false) :
    optLe t.trip_distance 0 = false := by
  simp only [invalidLogical, Bool.or_eq_false_iff] at h
  exact h.1.1.1.1

theorem reasonSound_missing {trips : List Trip} {zones : List Zone} {t : Trip}
    (hm : missingEssentials t = true) :
    reasonSound trips zones t "missing_essential_values" := by
  refine ⟨fun _ => hm, ?_, ?_, ?_, ?_, ?_, ?_, by simp⟩ <;> (intro hr; simp at hr)

theorem reasonSound_invalid {trips : List Trip} {zones : List Zone} {t : Trip}
    (h1 : missingEssentials t = false) (h2 : invalidLogical t = true) :
    reasonSound trips zones t "invalid_logical_values" := by
  refine ⟨?_, fun _ => ⟨h1, h2⟩, ?_, ?_, ?_, ?_, ?_, by simp⟩ <;> (intro hr; simp at hr)

theorem reasonSound_dup {trips : List Trip} {zones : List Zone} {t : Trip}
    (h1 : missingEssentials t = false) (h2 : invalidLogical t = false)
    (h3 : 2 ≤ (cleanSurvivors trips).countP (fun u => decide (dupKey u = dupKey t))) :
    reasonSound trips zones t "duplicate_trip" := by
  refine ⟨?_, ?_, fun _ => ⟨h1, h2, h3⟩, ?_, ?_, ?_, ?_, by simp⟩ <;> (intro hr; simp at hr)

theorem reasonSound_unmatched {trips : List Trip} {zones : List Zone} {t : Trip}
    (h1 : missingEssentials t = false) (h2 : invalidLogical t = false)
    (h3 : lookupZone zones t.pulocationid = none ∨
      lookupZone zones t.dolocationid = none) :
    reasonSound trips zones t "unmatched_zone_lookup" := by
  refine ⟨?_, ?_, ?_, fun _ => ⟨h1, h2, h3⟩, ?_, ?_, ?_, by simp⟩ <;> (intro hr; simp at hr)

theorem reasonSound_duration {trips : List Trip} {zones : List Zone} {t : Trip}
    (h1 : missingEssentials t = false) (h2 : invalidLogical t = false)
    (h3 : lookupZone zones t.pulocationid ≠ none)
    (h4 : lookupZone zones t.dolocationid ≠ none)
    (h5 : ∃ m, durationMinutes t = some m ∧ m ≤ 0) :
    reasonSound trips zones t "invalid_trip_duration" := by
  refine ⟨?_, ?_, ?_, ?_, fun _ => ⟨h1, h2, h3, h4, h5⟩, ?_, ?_, by simp⟩ <;>
    (intro hr; simp at hr)

theorem reasonSound_speed {trips : List Trip} {zones : List Zone} {t : Trip}
    (h1 : missingEssentials t = false) (h2 : invalidLogical t = false)
    (h3 : lookupZone zones t.pulocationid ≠ none)
    (h4 : lookupZone zones t.dolocationid ≠ none)
    (h5 : ∃ m, durationMinutes t = some m ∧ 0 < m)
    (h6 : ∃ s, averageSpeedKmh t = some s ∧ ¬(0 < s ∧ s ≤ 150)) :
    reasonSound trips zones t "invalid_average_speed" := by
  refine ⟨?_, ?_, ?_, ?_, ?_, fun _ => ⟨h1, h2, h3, h4, h5, h6⟩, ?_, by simp⟩ <;>
    (intro hr; simp at hr)

theorem reasonSound_revenue {trips : List Trip} {zones : List Zone} {t : Trip}
    (h1 : missingEssentials t = false) (h2 : invalidLogical t = false)
    (h3 : lookupZone zones t.pulocationid ≠ none)
    (h4 : lookupZone zones t.dolocationid ≠ none)
    (h5 : ∃ m, durationMinutes t = some m ∧ 0 < m)
    (h6 : ∃ s, averageSpeedKmh t = some s ∧ 0 < s ∧ s ≤ 150)
    (h7 : ∃ v, revenuePerKm t = some v ∧ v ≤ 0) :
    reasonSound trips zones t "invalid_revenue_per_km" := by
  refine ⟨?_, ?_, ?_, ?_, ?_, ?_, fun _ => ⟨h1, h2, h3, h4, h5, h6, h7⟩, by simp⟩ <;>
    (intro hr; simp at hr)

theorem cleaned_row_facts {trips : List Trip} {zones : List Zone} {e : Enriched}
    (hel : e ∈ (clean_trip_data trips zones).1) :
    missingEssentials e.orig = false ∧ invalidLogical e.orig = false ∧
    lookupZone zones e.orig.pulocationid ≠ none ∧
    lookupZone zones e.orig.dolocationid ≠ none ∧
    (∃ m, durationMinutes e.orig = some m) ∧
    (∃ dist, e.orig.trip_distance = some dist ∧ 0 < dist) ∧
    (∃ tot, e.orig.total_amount = some tot) := by
  obtain ⟨t, ht, rfl, hmatch⟩ := clean_accepted_shape hel
  have horig : (normalizeEnriched (enrichTrip zones t)).orig = t := rfl
  rw [horig]
  have htl : t ∈ cleanSurvivors trips := dedup_mem_kept _ _ _ ht
  obtain ⟨hsv1, hninv⟩ := List.mem_filter.mp htl
  obtain ⟨-, hnmiss⟩ := List.mem_filter.mp hsv1
  have hnmiss' : missingEssentials t = false := by simpa using hnmiss
  have hninv' : invalidLogical t = false := by simpa using hninv
  obtain ⟨pu, dof, dist, tot, puid, doid, hpu, hdo, hdist, htot, -, -⟩ :=
    missingEssentials_false_elim hnmiss'
  have hlu : ¬(lookupZone zones t.pulocationid = none ∨
      lookupZone zones t.dolocationid = none) :=
    fun hc => by simp [(unmatchedZone_enrich_iff zones t).mpr hc] at hmatch
  have hdistpos : 0 < dist := by
    have hd0 := invalidLogical_false_dist hninv'
    rw [hdist] at hd0
    exact lt_of_not_le (optLe_false_some hd0)
  exact ⟨hnmiss', hninv', fun hc => hlu (Or.inl hc), fun hc => hlu (Or.inr hc),
    ⟨_, durationMinutes_some hpu hdo⟩, ⟨dist, hdist, hdistpos⟩, ⟨tot, htot⟩⟩

/-- C1: with unique zone location ids, the composed pipeline partitions
its input: as multisets, the accepted feature rows' underlying trips plus
the merged exclusion ledger's trips are a permutation of the input — each
record lands in exactly one place, exactly once.  Every ledger entry's
recorded reason is that of the first filter, in the fixed order
missing → logical-invalid → duplicate → unmatched-zone → duration →
speed → revenue, that the record violates (each filter's exclusions are
removed from the next filter's input, so an entry with a later reason
passes every earlier filter), and accepted records violate none. -/
theorem pipeline_partition_and_first_reason (trips : List Trip) (zones : List Zone)
    (huniq : (zones.map Zone.locationid).Nodup) :
    List.Perm ((pipelineOnce trips zones).1.map FeatRec.orig ++
      (pipelineOnce trips zones).2.map (fun x => x.1.1)) trips ∧
    (∀ x ∈ (pipelineOnce trips zones).2, reasonSound trips zones x.1.1 x.1.2) ∧
    (∀ f ∈ (pipelineOnce trips zones).1, acceptedSound zones f.orig) := by
  have hone : (pipelineOnce trips zones).1 =
      (engineer_features (clean_trip_data trips zones).1).1 := rfl
  refine ⟨?_, ?_, ?_⟩
  · have hclean := clean_partition trips zones
    have hfe := engineer_partition (clean_trip_data trips zones).1
    rw [hone, pipelineOnce_ledger]
    rw [List.map_append, List.map_map, List.map_map]
    have hc1 : ((fun x : (Trip × String) × String => x.1.1) ∘
        (fun p : Trip × String => (p, "cleaning"))) = Prod.fst := funext fun p => rfl
    have hc2 : ((fun x : (Trip × String) × String => x.1.1) ∘
        (fun p : Trip × String => (p, "feature_engineering"))) = Prod.fst :=
      funext fun p => rfl
    rw [hc1, hc2]
    rw [List.perm_iff_count]
    intro a
    have hca := hclean.count_eq a
    have hfa := hfe.count_eq a
    simp only [List.count_append] at hca hfa ⊢
    omega
  · intro x hx
    rw [pipelineOnce_ledger] at hx
    rcases List.mem_append.mp hx with hxc | hxf
    · obtain ⟨p, hp, rfl⟩ := List.mem_map.mp hxc
      rcases clean_exc_shape hp with ⟨t, htl, rfl, hm⟩ | ⟨t, htl, rfl, hm, hinv⟩ |
        ⟨t, ht, rfl⟩ | ⟨t, ht, rfl, hmask⟩
      · exact reasonSound_missing hm
      · exact reasonSound_invalid hm hinv
      · show reasonSound trips zones t "duplicate_trip"
        have htl : t ∈ cleanSurvivors trips := dedup_mem_dups _ _ _ ht
        obtain ⟨hsv1, hninv⟩ := List.mem_filter.mp htl
        obtain ⟨-, hnmiss⟩ := List.mem_filter.mp hsv1
        rcases dedup_dups_key _ _ _ ht with hk | ⟨u, hu, hk⟩
        · simp at hk
        · have hcnt := (dedup_perm (cleanSurvivors trips) []).countP_eq
            (fun v => decide (dupKey v = dupKey t))
          rw [List.countP_append] at hcnt
          have hkept : 0 < (dedup (cleanSurvivors trips) []).1.countP
              (fun v => decide (dupKey v = dupKey t)) :=
            List.countP_pos_iff.mpr ⟨u, hu, by simp [hk]⟩
          have hdups : 0 < (dedup (cleanSurvivors trips) []).2.countP
              (fun v => decide (dupKey v = dupKey t)) :=
            List.countP_pos_iff.mpr ⟨t, ht, by simp⟩
          exact reasonSound_dup (by simpa using hnmiss) (by simpa using hninv)
            (by omega)
      · have htl : t ∈ cleanSurvivors trips := dedup_mem_kept _ _ _ ht
        obtain ⟨hsv1, hninv⟩ := List.mem_filter.mp htl
        obtain ⟨-, hnmiss⟩ := List.mem_filter.mp hsv1
        exact reasonSound_unmatched (by simpa using hnmiss) (by simpa using hninv)
          ((unmatchedZone_enrich_iff zones t).mp hmask)
    · obtain ⟨p, hp, rfl⟩ := List.mem_map.mp hxf
      rcases engineer_features_exc_shape hp with ⟨e, hel, rfl, hm⟩ |
        ⟨e, hel, rfl, hm1, hm2⟩ | ⟨e, hel, rfl, hm1, hm2, hm3⟩
      · obtain ⟨hnm, hni, hl1, hl2, -, -, -⟩ := cleaned_row_facts hel
        exact reasonSound_duration hnm hni hl1 hl2 ((optLe_true_iff _ _).mp hm)
      · obtain ⟨hnm, hni, hl1, hl2, ⟨m, hdm⟩, -, -⟩ := cleaned_row_facts hel
        have hmpos : 0 < m := by
          have hm1' := hm1
          simp only [invalidDurationMask, hdm] at hm1'
          exact lt_of_not_le (optLe_false_some hm1')
        obtain ⟨s, hs, hor⟩ := (invalidSpeedMask_true_iff _).mp hm2
        refine reasonSound_speed hnm hni hl1 hl2 ⟨m, hdm, hmpos⟩ ⟨s, hs, ?_⟩
        intro hc
        rcases hor with h | h
        · exact absurd h (not_le.mpr hc.1)
        · exact absurd h (not_lt.mpr hc.2)
      · obtain ⟨hnm, hni, hl1, hl2, ⟨m, hdm⟩, ⟨dist, hdist, hdp⟩, ⟨tot, htot⟩⟩ :=
          cleaned_row_facts hel
        have hmpos : 0 < m := by
          have hm1' := hm1
          simp only [invalidDurationMask, hdm] at hm1'
          exact lt_of_not_le (optLe_false_some hm1')
        have hsp := averageSpeedKmh_some hdist hdm (ne_of_gt hmpos)
        have hsrange := invalidSpeedMask_false_some hsp hm2
        exact reasonSound_revenue hnm hni hl1 hl2 ⟨m, hdm, hmpos⟩ ⟨_, hsp, hsrange⟩
          ((invalidRevenueMask_true_iff _).mp hm3)
  · intro f hf
    rw [hone] at hf
    obtain ⟨e, hel, hbase, -, -, -, -, -, h1, h2, h3⟩ := engineer_features_out_shape hf
    obtain ⟨hnm, hni, hl1, hl2, ⟨m, hdm⟩, ⟨dist, hdist, hdp⟩, ⟨tot, htot⟩⟩ :=
      cleaned_row_facts hel
    have hforig : f.orig = e.orig := by rw [FeatRec.orig, hbase]
    rw [hforig]
    have hmpos : 0 < m := by
      have h1' := h1
      simp only [invalidDurationMask, hdm] at h1'
      exact lt_of_not_le (optLe_false_some h1')
    have hsp := averageSpeedKmh_some hdist hdm (ne_of_gt hmpos)
    have hsrange := invalidSpeedMask_false_some hsp h2
    have hrv := revenuePerKm_some htot hdist (ne_of_gt hdp)
    have hrpos := invalidRevenueMask_false_some hrv h3
    exact ⟨hnm, hni, hl1, hl2, ⟨m, hdm, hmpos⟩, ⟨_, hsp, hsrange⟩, ⟨_, hrv, hrpos⟩⟩

/-- Witness for C1 at a concrete input. -/
theorem pipeline_partition_and_first_reason_witness :
    ([zoneA].map Zone.locationid).Nodup ∧
    (List.Perm ((pipelineOnce [tripMon10] [zoneA]).1.map FeatRec.orig ++
      (pipelineOnce [tripMon10] [zoneA]).2.map (fun x => x.1.1)) [tripMon10] ∧
     (∀ x ∈ (pipelineOnce [tripMon10] [zoneA]).2,
        reasonSound [tripMon10] [zoneA] x.1.1 x.1.2) ∧
     (∀ f ∈ (pipelineOnce [tripMon10] [zoneA]).1, acceptedSound [zoneA] f.orig)) :=
  ⟨by simp, pipeline_partition_and_first_reason [tripMon10] [zoneA] (by simp)⟩

end NycTaxi
